import Mathlib

/-!
Shallow embedding of the Layer-Wise Primitive Stacking (LPS) reconstruction
engine of `src/meshconverter/reconstruction/layer_wise_stacker.py`, together
with theorems checking the natural-language specification against it.

Modelling conventions:
* Scalars are rationals (`ℚ`); the Python code uses floats, but every claim
  under study is about exact threshold logic, so exact arithmetic is the
  honest reading.
* External numeric collaborators (scipy Nelder-Mead circle fitting, shapely
  `minimum_rotated_rectangle`, sklearn PCA, trimesh sectioning and solid
  construction, `numpy.linalg.norm`) are modelled as data or as function
  parameters: a `Polygon` carries the outputs of the three fitting routines
  and the shape-metric vector (which involves pi and square roots, hence is
  not rational-computable), a `Mesh` carries its planar-section query, and
  the Euclidean norm is a `Dist` parameter.  All logic that the repository
  itself implements (boost/penalty selection, fuzzy merge scoring, grouping,
  boundary filtering, slicing heights, extrusion dispatch, quality scoring,
  the `reconstruct` control flow) is translated statement by statement.
* Python exceptions from external geometry kernels are modelled by an
  explicit failure predicate where the code catches them (`extrude_segment`'s
  try/except); the embedded functions are total, matching the code's intent
  that no exception escapes.
* `vision_results` is modelled as absent (`None`), its default; the claims
  under study do not concern the optional vision hints.
-/

namespace LPS

/-- Tag of a fitted 2D primitive: the `type` key of the candidate dicts
(`circle` / `rectangle` / `ellipse`). -/
inductive ShapeType where
  | circle
  | rectangle
  | ellipse
deriving DecidableEq

/-- Shape-metric vector computed once per polygon by
`calculate_shape_metrics` (source lines 325-357).  The metrics involve pi
and Euclidean edge lengths, so they are carried as data of the polygon;
`aspect` is the source's `aspect_ratio`. -/
structure ShapeMetrics where
  circularity : ℚ
  rectangularity : ℚ
  aspect : ℚ
deriving DecidableEq

/-- Output of `fit_circle_2d` (source lines 198-243): scipy least-squares
fit, carried as data. -/
structure CircleFitRes where
  center : ℚ × ℚ
  radius : ℚ
  rms_error : ℚ
  fit_quality : ℚ
deriving DecidableEq

/-- Output of `fit_rectangle_2d` (source lines 245-281): shapely
minimum-rotated-rectangle fit, carried as data.  Its `fit_quality` is
`polygon_area / rectangle_area`, which the code also stores under the
`rectangularity` key of the rectangle candidate. -/
structure RectFitRes where
  center : ℚ × ℚ
  width : ℚ
  height : ℚ
  rotation : ℚ
  fit_quality : ℚ
deriving DecidableEq

/-- Output of `fit_ellipse_2d` (source lines 283-323): PCA fit, carried as
data. -/
structure EllipseFitRes where
  center : ℚ × ℚ
  major_axis : ℚ
  minor_axis : ℚ
  rotation : ℚ
  fit_quality : ℚ
deriving DecidableEq

/-- A 2D cross-section polygon.  The shapely polygon object itself is an
external collaborator; what the repository's logic reads from it are its
area, centroid, shape metrics and the three primitive fits, so a polygon is
modelled as that record. -/
structure Polygon where
  area : ℚ
  centroid : ℚ × ℚ
  metrics : ShapeMetrics
  circleFit : CircleFitRes
  rectFit : RectFitRes
  ellipseFit : EllipseFitRes
deriving DecidableEq

/-- The candidate/result dictionary built by `classify_and_fit_2d`: a
discriminated record with the union of the type-specific keys (unused keys
default to 0 / `none`, mirroring their absence from the Python dict; the
`rectangularity` key is present only on rectangle candidates, hence the
`Option`). -/
structure Fitted2D where
  type : ShapeType
  center : ℚ × ℚ
  fit_quality : ℚ
  radius : ℚ := 0
  rms_error : ℚ := 0
  width : ℚ := 0
  height : ℚ := 0
  rotation : ℚ := 0
  major_axis : ℚ := 0
  minor_axis : ℚ := 0
  rectangularity : Option ℚ := none
  metrics : ShapeMetrics
  use_polygon_extrusion : Bool := false
deriving DecidableEq

/-- Circle candidate of `classify_and_fit_2d` (source lines 386-393): the
raw circle fit with the circularity boost/penalty applied to its
`fit_quality`. -/
def circleCandidate (p : Polygon) : Fitted2D :=
  let f := p.circleFit
  let q :=
    if p.metrics.circularity > 0.90 then f.fit_quality * 1.2
    else if p.metrics.circularity < 0.80 then f.fit_quality * 0.7
    else f.fit_quality
  { type := ShapeType.circle, center := f.center, fit_quality := q,
    radius := f.radius, rms_error := f.rms_error, metrics := p.metrics }

/-- Rectangle candidate of `classify_and_fit_2d` (source lines 395-403): the
raw rectangle fit with the rectangularity boost/penalty applied; its
`rectangularity` key keeps the raw (unboosted) fit quality. -/
def rectangleCandidate (p : Polygon) : Fitted2D :=
  let f := p.rectFit
  let q :=
    if p.metrics.rectangularity > 0.95 then f.fit_quality * 1.3
    else if p.metrics.rectangularity < 0.85 then f.fit_quality * 0.8
    else f.fit_quality
  { type := ShapeType.rectangle, center := f.center, fit_quality := q,
    width := f.width, height := f.height, rotation := f.rotation,
    rectangularity := some f.fit_quality, metrics := p.metrics }

/-- Ellipse candidate of `classify_and_fit_2d` (source lines 405-411): the
raw ellipse fit with the aspect-ratio boost applied. -/
def ellipseCandidate (p : Polygon) : Fitted2D :=
  let f := p.ellipseFit
  let q := if p.metrics.aspect > 1.5 then f.fit_quality * 1.1 else f.fit_quality
  { type := ShapeType.ellipse, center := f.center, fit_quality := q,
    major_axis := f.major_axis, minor_axis := f.minor_axis,
    rotation := f.rotation, metrics := p.metrics }

/-- Python's `max(xs, key=f)` over a non-empty list: fold that replaces the
running best only on a strictly larger key, so the first element with the
maximal key wins ties. -/
def pyListMax (f : Fitted2D → ℚ) (x0 : Fitted2D) (xs : List Fitted2D) : Fitted2D :=
  xs.foldl (fun b y => if f y > f b then y else b) x0

/-- The geometric-heuristic polygon-extrusion flag attached by
`classify_and_fit_2d` when CV validation is disabled (source lines 465-468):
`best['use_polygon_extrusion'] = best.get('rectangularity', 1.0) < 0.75`. -/
def attachFlag (best : Fitted2D) : Fitted2D :=
  { best with use_polygon_extrusion := decide (best.rectangularity.getD 1 < 0.75) }

/-- `classify_and_fit_2d` (source lines 359-470), with CV validation
disabled (its `use_cv_validation and CV_AVAILABLE` gate false): builds the
three boosted candidates, applies the hint preference, the three
metric-discrimination rules and the quality maximum in the source's order,
then attaches the polygon-extrusion flag. -/
def classify_and_fit_2d (hint : Option ShapeType) (p : Polygon) : Fitted2D :=
  let m := p.metrics
  let cands := [circleCandidate p, rectangleCandidate p, ellipseCandidate p]
  let hinted : Option Fitted2D :=
    match hint with
    | some t => cands.find? (fun c => decide (c.type = t) && decide (c.fit_quality > 0.7))
    | none => none
  let ruled : Option Fitted2D :=
    match hinted with
    | some b => some b
    | none =>
      if m.rectangularity > 0.90 ∧ m.circularity < 0.82 then
        cands.find? (fun c => decide (c.type = ShapeType.rectangle))
      else if m.circularity > 0.90 ∧ m.rectangularity < 0.85 then
        cands.find? (fun c => decide (c.type = ShapeType.circle))
      else if m.rectangularity > m.circularity + 0.10 then
        cands.find? (fun c => decide (c.type = ShapeType.rectangle))
      else none
  let best :=
    match ruled with
    | some b => b
    | none => pyListMax (fun c => c.fit_quality) (circleCandidate p)
        [rectangleCandidate p, ellipseCandidate p]
  attachFlag best

/-- Selection policy as worded by the specification (section 4.2, "apply in
order, first match wins"), written independently of the source's
find?/fall-through control flow: rule 1 hint preference, rule 2 rectangle,
rule 3 circle, rule 4 rectangle tiebreak, rule 5 highest boosted quality. -/
def classifySelectSpec (hint : Option ShapeType) (p : Polygon) : Fitted2D :=
  let m := p.metrics
  let cc := circleCandidate p
  let rc := rectangleCandidate p
  let ec := ellipseCandidate p
  let pick : ShapeType → Fitted2D := fun t =>
    match t with
    | ShapeType.circle => cc
    | ShapeType.rectangle => rc
    | ShapeType.ellipse => ec
  let fallback :=
    if m.rectangularity > 0.90 ∧ m.circularity < 0.82 then rc
    else if m.circularity > 0.90 ∧ m.rectangularity < 0.85 then cc
    else if m.rectangularity > m.circularity + 0.10 then rc
    else pyListMax (fun c => c.fit_quality) cc [rc, ec]
  match hint with
  | some t => if (pick t).fit_quality > 0.7 then pick t else fallback
  | none => fallback

/-- Default shape metrics (all-zero), used only as the `headD`/`getD`
fallback where the Python code would raise an IndexError on an empty list;
every theorem either assumes or proves the relevant lists non-empty. -/
def dMetrics : ShapeMetrics := { circularity := 0, rectangularity := 0, aspect := 0 }

/-- Default polygon (all-zero), fallback companion of `dMetrics`. -/
def dPolygon : Polygon :=
  { area := 0, centroid := (0, 0), metrics := dMetrics,
    circleFit := { center := (0, 0), radius := 0, rms_error := 0, fit_quality := 0 },
    rectFit := { center := (0, 0), width := 0, height := 0, rotation := 0, fit_quality := 0 },
    ellipseFit := { center := (0, 0), major_axis := 0, minor_axis := 0, rotation := 0,
                    fit_quality := 0 } }

/-- One cross-section layer, as the dictionary built by `slice_mesh`
(source lines 183-189). -/
structure Layer where
  layer_id : ℕ
  z_height : ℚ
  polygon : Polygon
  area : ℚ
  centroid : ℚ × ℚ
deriving DecidableEq

/-- Default layer (all-zero), fallback companion of `dPolygon`. -/
def dLayer : Layer :=
  { layer_id := 0, z_height := 0, polygon := dPolygon, area := 0, centroid := (0, 0) }

/-- The part of a segment dictionary read by `should_merge_segments`: the
call sites at source lines 700-707 and 801-804/833-835 pass reduced dicts
holding exactly the `primitive_2d` and `layers` keys. -/
structure SegView where
  primitive_2d : Fitted2D
  layers : List Layer
deriving DecidableEq

/-- Segment dictionary as built by `group_similar_layers`
(source lines 736-744). -/
structure Segment where
  z_start : ℚ
  z_end : ℚ
  height : ℚ
  num_layers : ℕ
  layers : List Layer
  primitive_2d : Fitted2D
  shape : ShapeType
deriving DecidableEq

/-- View of a segment as the reduced dict passed to
`should_merge_segments`. -/
def Segment.toView (s : Segment) : SegView :=
  { primitive_2d := s.primitive_2d, layers := s.layers }

/-- `fuzzy_size_match` (source lines 472-494). -/
def fuzzy_size_match (r : ℚ) : ℚ :=
  if r > 0.95 then 1.0
  else if r > 0.85 then 0.8
  else if r > 0.70 then 0.6
  else if r > 0.50 then 0.3
  else 0.0

/-- `fuzzy_shape_match` (source lines 496-510). -/
def fuzzy_shape_match (a b : ShapeType) : ℚ :=
  if a = b then 1.0
  else if (a = ShapeType.circle ∧ b = ShapeType.ellipse) ∨
      (a = ShapeType.ellipse ∧ b = ShapeType.circle) then 0.7
  else if (a = ShapeType.rectangle ∧ b = ShapeType.ellipse) ∨
      (a = ShapeType.ellipse ∧ b = ShapeType.rectangle) then 0.5
  else if (a = ShapeType.circle ∧ b = ShapeType.rectangle) ∨
      (a = ShapeType.rectangle ∧ b = ShapeType.circle) then 0.4
  else 0.1

/-- `fuzzy_alignment` (source lines 512-525). -/
def fuzzy_alignment (centroid_dist avg_radius : ℚ) : ℚ :=
  if avg_radius = 0 then 0.5
  else
    let rq := centroid_dist / avg_radius
    if rq < 0.05 then 1.0
    else if rq < 0.10 then 0.8
    else if rq < 0.20 then 0.5
    else 0.2

/-- The characteristic radius a segment's primitive contributes to the
alignment normalisation (source lines 559-575; the string-match fallback
`sqrt(area/pi)` branch is unreachable for the three concrete types). -/
def charRadius (p : Fitted2D) : ℚ :=
  match p.type with
  | ShapeType.circle => p.radius
  | ShapeType.rectangle => (p.width + p.height) / 4
  | ShapeType.ellipse => (p.major_axis + p.minor_axis) / 4

/-- The Euclidean norm `numpy.linalg.norm(centroid_a - centroid_b)` is an
external numeric routine (and irrational in general), modelled as a
parameter of the merge logic. -/
abbrev Dist := ℚ × ℚ → ℚ × ℚ → ℚ

/-- A concrete distance function used to instantiate `Dist` in closed
witnesses (the theorems hold for every `Dist`). -/
def taxiDist (p q : ℚ × ℚ) : ℚ := |p.1 - q.1| + |p.2 - q.2|

/-- `should_merge_segments` (source lines 527-597): fuzzy-logic merge
decision between two segments, returning
`(should_merge, confidence_level, merge_score)`. -/
def should_merge_segments (dist : Dist) (a b : SegView) : Bool × String × ℚ :=
  let prim_a := a.primitive_2d
  let prim_b := b.primitive_2d
  let area_a := (a.layers.headD dLayer).area
  let area_b := (b.layers.headD dLayer).area
  let area_quot := if max area_a area_b > 0 then min area_a area_b / max area_a area_b else 0
  let shape_match := fuzzy_shape_match prim_a.type prim_b.type
  let centroid_dist := dist (a.layers.headD dLayer).centroid (b.layers.headD dLayer).centroid
  let avg_radius := (charRadius prim_a + charRadius prim_b) / 2
  let alignment := fuzzy_alignment centroid_dist avg_radius
  let size_match := fuzzy_size_match area_quot
  let merge_score := 0.40 * size_match + 0.35 * shape_match + 0.25 * alignment
  if merge_score > 0.70 then (true, "high_confidence", merge_score)
  else if merge_score > 0.50 then (true, "medium_confidence", merge_score)
  else if merge_score > 0.35 then (true, "low_confidence", merge_score)
  else (false, "split_segments", merge_score)

/-- Size-match membership function as worded in the specification: the step
function of the area quotient `min(a1,a2)/max(a1,a2)`. -/
def sizeMatchSpec (r : ℚ) : ℚ :=
  if r > 0.95 then 1
  else if r > 0.85 then 0.8
  else if r > 0.70 then 0.6
  else if r > 0.50 then 0.3
  else 0

/-- Shape-match membership function as worded in the specification:
`1.0` same type, `0.7` circle-ellipse, `0.5` rectangle-ellipse,
`0.4` circle-rectangle, `0.1` otherwise. -/
def shapeMatchSpec (a b : ShapeType) : ℚ :=
  if a = b then 1
  else if (a = ShapeType.circle ∧ b = ShapeType.ellipse) ∨
      (a = ShapeType.ellipse ∧ b = ShapeType.circle) then 0.7
  else if (a = ShapeType.rectangle ∧ b = ShapeType.ellipse) ∨
      (a = ShapeType.ellipse ∧ b = ShapeType.rectangle) then 0.5
  else if (a = ShapeType.circle ∧ b = ShapeType.rectangle) ∨
      (a = ShapeType.rectangle ∧ b = ShapeType.circle) then 0.4
  else 0.1

/-- Alignment membership function as worded in the specification: the step
function of centroid-distance over average characteristic radius. -/
def alignmentSpec (rq : ℚ) : ℚ :=
  if rq < 0.05 then 1
  else if rq < 0.10 then 0.8
  else if rq < 0.20 then 0.5
  else 0.2

/-- numpy median: average of the two middle elements of the sorted list for
even length, the middle element for odd length. -/
def npMedian (l : List ℚ) : ℚ :=
  let s := l.insertionSort (· ≤ ·)
  let n := l.length
  if n % 2 = 1 then s.getD (n / 2) 0
  else (s.getD (n / 2 - 1) 0 + s.getD (n / 2) 0) / 2

/-- `_filter_boundary_artifacts` (source lines 599-649): trims tiny
boundary layers around the stable middle run, with a per-side 20% cap. -/
def filter_boundary_artifacts (layers : List Layer) : List Layer :=
  if layers.length < 5 then layers
  else
    let areas := layers.map (fun l => l.area)
    let median_area := npMedian areas
    if median_area = 0 then layers
    else
      let threshold := 0.10 * median_area
      let j := layers.findIdx (fun l => decide (l.area > threshold))
      let start_idx := if j = layers.length then 0 else j
      let k := layers.reverse.findIdx (fun l => decide (l.area > threshold))
      let end_idx := if k = layers.length then layers.length - 1 else layers.length - 1 - k
      if (start_idx : ℚ) > (layers.length : ℚ) * 0.2 ∨
          ((layers.length : ℚ) - (end_idx : ℚ) - 1) > (layers.length : ℚ) * 0.2 then layers
      else
        let filtered := (layers.drop start_idx).take (end_idx + 1 - start_idx)
        if filtered.isEmpty then layers else filtered

/-- The single-layer temporary segment dict built for the layer-by-layer
comparison in `group_similar_layers` (source lines 699-707): its primitive
is the hint-free fit of the layer's polygon (`vision_results` modelled as
absent). -/
def layerView (l : Layer) : SegView :=
  { primitive_2d := classify_and_fit_2d none l.polygon, layers := [l] }

/-- Merge decision between two adjacent single layers
(source line 710). -/
def layersMerge (dist : Dist) (prev curr : Layer) : Bool :=
  (should_merge_segments dist (layerView prev) (layerView curr)).1

/-- Segment dictionary construction shared by the three creation sites
(source lines 729-744, 762-777, 808-825 and 840-858): `z_start`/`z_end`
from the first/last layer, `height = (z_end - z_start) + layer_height`. -/
def mkSegment (lh : ℚ) (ls : List Layer) (prim : Fitted2D) : Segment :=
  { z_start := (ls.headD dLayer).z_height,
    z_end := (ls.getLastD dLayer).z_height,
    height := (ls.getLastD dLayer).z_height - (ls.headD dLayer).z_height + lh,
    num_layers := ls.length, layers := ls, primitive_2d := prim,
    shape := prim.type }

/-- Closing a group of layers into a segment: the representative primitive
is the hint-free fit of the middle layer (source lines 717-744). -/
def closeSeg (lh : ℚ) (ls : List Layer) : Segment :=
  mkSegment lh ls (classify_and_fit_2d none ((ls.getD (ls.length / 2) dLayer).polygon))

/-- The layer-by-layer grouping scan of `group_similar_layers` (source
lines 686-777): `prev` is the previous layer, `cur` the open segment's
layers, the third argument the remaining layers; on a merge decision the
open segment is extended, otherwise it is closed and a new one started, and
the final group is always closed. -/
def groupScanAux (dist : Dist) (lh : ℚ) : Layer → List Layer → List Layer → List Segment
  | _, cur, [] => [closeSeg lh cur]
  | prev, cur, c :: rest =>
    if layersMerge dist prev c then groupScanAux dist lh c (cur ++ [c]) rest
    else closeSeg lh cur :: groupScanAux dist lh c [c] rest

/-- Condition under which the short-segment post-pass merges two adjacent
segments (source lines 801-806 and 833-838): the fuzzy decision OR equal
shape tags. -/
def mergeCond (dist : Dist) (a b : Segment) : Bool :=
  (should_merge_segments dist a.toView b.toView).1 || decide (a.shape = b.shape)

/-- Combination of two adjacent segments in the post-pass (source lines
808-825 and 840-858): concatenate the layer lists and refit the middle
layer. -/
def combineSegs (lh : ℚ) (a b : Segment) : Segment :=
  let ls := a.layers ++ b.layers
  mkSegment lh ls (classify_and_fit_2d none ((ls.getD (ls.length / 2) dLayer).polygon))

/-- One full scan of the short-segment absorption pass (the body of the
`while i < len(segments)` loop, source lines 788-872).  The first argument
models the loop index skipping the already-consumed `next` segment after a
merge-with-next (`i += 2`): when it is `true` the head has already been
absorbed and is dropped.  The second argument is the accumulated
`new_segments`, the third the `merged` flag, the fourth the remaining
segments.  A short segment first tries to merge with the next segment,
then with the previously accumulated one, else is kept as-is. -/
def scanOnceAux (dist : Dist) (lh minH : ℚ) :
    Bool → List Segment → Bool → List Segment → List Segment × Bool
  | _, acc, merged, [] => (acc, merged)
  | true, acc, merged, _ :: rest => scanOnceAux dist lh minH false acc merged rest
  | false, acc, merged, seg :: rest =>
    if seg.height < minH then
      match rest with
      | next :: _ =>
        if mergeCond dist seg next then
          scanOnceAux dist lh minH true (acc ++ [combineSegs lh seg next]) true rest
        else
          match acc.getLast? with
          | some prev =>
            if mergeCond dist prev seg then
              scanOnceAux dist lh minH false (acc.dropLast ++ [combineSegs lh prev seg])
                true rest
            else scanOnceAux dist lh minH false (acc ++ [seg]) merged rest
          | none => scanOnceAux dist lh minH false (acc ++ [seg]) merged rest
      | [] =>
        match acc.getLast? with
        | some prev =>
          if mergeCond dist prev seg then (acc.dropLast ++ [combineSegs lh prev seg], true)
          else (acc ++ [seg], merged)
        | none => (acc ++ [seg], merged)
    else scanOnceAux dist lh minH false (acc ++ [seg]) merged rest

/-- One iteration of the short-segment absorption loop, returning the new
segment list and whether any merge happened. -/
def scanOnce (dist : Dist) (lh minH : ℚ) (segs : List Segment) : List Segment × Bool :=
  scanOnceAux dist lh minH false [] false segs

/-- The `while merged and iteration < max_iterations` loop (source lines
781-872) with its fuel; the second component counts the scans actually
performed (the source's `iteration` variable). -/
def shortMergeGo (dist : Dist) (lh minH : ℚ) : ℕ → List Segment → List Segment × ℕ
  | 0, segs => (segs, 0)
  | n + 1, segs =>
    let p := scanOnce dist lh minH segs
    if p.2 then
      let q := shortMergeGo dist lh minH n p.1
      (q.1, q.2 + 1)
    else (p.1, 1)

/-- Boundary filtering followed by the grouping scan (source lines
666-777): the segment list entering the short-segment post-pass. -/
def initialSegments (dist : Dist) (lh : ℚ) (layers : List Layer) : List Segment :=
  match filter_boundary_artifacts layers with
  | [] => []
  | f0 :: rest => groupScanAux dist lh f0 [f0] rest

/-- `group_similar_layers` (source lines 651-877) with `vision_results`
absent: boundary filtering, the grouping scan, then the short-segment
absorption loop capped at `max_iterations = 10`. -/
def group_similar_layers (dist : Dist) (lh minH : ℚ) (layers : List Layer) : List Segment :=
  (shortMergeGo dist lh minH 10 (initialSegments dist lh layers)).1

/-- numpy `linspace(a, b, n)`: `n` evenly spaced points from `a` to `b`
inclusive (`[a]` for `n = 1`, `[]` for `n = 0`). -/
def linspace (a b : ℚ) (n : ℕ) : List ℚ :=
  if n = 0 then []
  else if n = 1 then [a]
  else (List.range n).map (fun i : ℕ => a + (i : ℚ) * ((b - a) / ((n : ℚ) - 1)))

/-- `num_layers = int((z_max - z_min) / layer_height)` of `slice_mesh`
(source line 140); the quotient is non-negative in every use, where
Python's truncation agrees with the floor. -/
def num_slice_layers (z_min z_max lh : ℚ) : ℕ := (⌊(z_max - z_min) / lh⌋).toNat

/-- The candidate section heights of `slice_mesh` (source line 141):
`np.linspace(z_min + layer_height, z_max - layer_height, num_layers)`. -/
def sliceHeights (z_min z_max lh : ℚ) : List ℚ :=
  linspace (z_min + lh) (z_max - lh) (num_slice_layers z_min z_max lh)

/-- A 3D mesh as the core consumes it: vertex list, volume, and the
trimesh planar-section query (an external collaborator returning `none`
when the section is missing, empty or fails validity checks — the cases the
code skips, source lines 150-194). -/
structure Mesh where
  verts : List (ℚ × ℚ × ℚ)
  volume : ℚ
  sec : Fin 3 → ℚ → Option Polygon

/-- Coordinate of a vertex along one of the three axes. -/
def coordAt (i : Fin 3) (v : ℚ × ℚ × ℚ) : ℚ :=
  if i.val = 0 then v.1 else if i.val = 1 then v.2.1 else v.2.2

/-- Minimum of a list of rationals (0 for the empty list, on which the
Python code would raise; theorems needing it assume vertices exist). -/
def listMinD (l : List ℚ) : ℚ := l.foldl min (l.headD 0)

/-- Maximum of a list of rationals, companion of `listMinD`. -/
def listMaxD (l : List ℚ) : ℚ := l.foldl max (l.headD 0)

/-- Minimum vertex projection onto an axis (source line 137). -/
def projMin (m : Mesh) (i : Fin 3) : ℚ := listMinD (m.verts.map (coordAt i))

/-- Maximum vertex projection onto an axis (source line 137). -/
def projMax (m : Mesh) (i : Fin 3) : ℚ := listMaxD (m.verts.map (coordAt i))

/-- Bounding-box extent of a mesh along one axis (`mesh.extents`). -/
def extents (m : Mesh) (i : Fin 3) : ℚ := projMax m i - projMin m i

/-- `detect_primary_axis` (source lines 85-116): slice along the shortest
bounding-box extent; numpy `argmin` picks the first minimal index. -/
def detect_primary_axis (m : Mesh) : Fin 3 × String :=
  let e0 := extents m 0
  let e1 := extents m 1
  let e2 := extents m 2
  if e0 ≤ e1 ∧ e0 ≤ e2 then ((0 : Fin 3), "X")
  else if e1 ≤ e2 then ((1 : Fin 3), "Y")
  else ((2 : Fin 3), "Z")

/-- `slice_mesh` (source lines 118-196): section the mesh at each candidate
height, skipping heights whose section is missing or invalid; `layer_id` is
the index into the candidate heights. -/
def slice_mesh (m : Mesh) (axis : Fin 3) (lh : ℚ) : List Layer :=
  let z_min := projMin m axis
  let z_max := projMax m axis
  (sliceHeights z_min z_max lh).enum.filterMap (fun iz =>
    (m.sec axis iz.2).map (fun poly =>
      { layer_id := iz.1, z_height := iz.2, polygon := poly,
        area := poly.area, centroid := poly.centroid }))

/-- A 3D solid as `extrude_segment` constructs it: each constructor records
the parameters the code passes to the trimesh creation routines (which are
external). -/
inductive Solid3D where
  | cylinder (radius height : ℚ) (translation : ℚ × ℚ × ℚ)
  | polyExtrusion (poly : Polygon) (height : ℚ) (alignedTo : String)
      (translation : ℚ × ℚ × ℚ)
  | box (width depth height : ℚ) (rotation : ℚ) (translation : ℚ × ℚ × ℚ)
  | scaledCylinder (major minor height rotation : ℚ) (translation : ℚ × ℚ × ℚ)
deriving DecidableEq

/-- Translation applied to a generated solid, keyed on the axis name
(source lines 914-919, 989-995, 1029-1034). -/
def axisTranslation (axisName : String) (c : ℚ × ℚ) (zc : ℚ) : ℚ × ℚ × ℚ :=
  if axisName = "Z" then (c.1, c.2, zc)
  else if axisName = "Y" then (c.1, zc, c.2)
  else (zc, c.1, c.2)

/-- `extrude_segment` (source lines 879-1047): dispatch on the primitive's
type; the rectangle branch extrudes the representative layer's raw polygon
when `use_polygon_extrusion` is set and the segment carries layers, else a
box; exceptions of the external geometry kernel are modelled at the call
site in `reconstruct`. -/
def extrude_segment (seg : Segment) (axisName : String) : Option Solid3D :=
  let prim := seg.primitive_2d
  let height := seg.height
  let zc := (seg.z_start + seg.z_end) / 2
  match prim.type with
  | ShapeType.circle =>
    some (Solid3D.cylinder prim.radius height (axisTranslation axisName prim.center zc))
  | ShapeType.rectangle =>
    if prim.use_polygon_extrusion ∧ seg.layers ≠ [] then
      let rep := seg.layers.getD (seg.layers.length / 2) dLayer
      let tr :=
        if axisName = "Z" then ((0 : ℚ), (0 : ℚ), zc - height / 2)
        else if axisName = "Y" then ((0 : ℚ), zc, (0 : ℚ))
        else (zc, (0 : ℚ), (0 : ℚ))
      some (Solid3D.polyExtrusion rep.polygon height axisName tr)
    else
      some (Solid3D.box prim.width prim.height height prim.rotation
        (axisTranslation axisName prim.center zc))
  | ShapeType.ellipse =>
    some (Solid3D.scaledCylinder (prim.major_axis / 2) (prim.minor_axis / 2) height
      prim.rotation (axisTranslation axisName prim.center zc))

/-- Overwriting the `use_polygon_extrusion` flag of a segment's primitive
(used to state that extrusion of non-rectangle segments ignores the
flag). -/
def setFlag (seg : Segment) (b : Bool) : Segment :=
  { seg with primitive_2d := { seg.primitive_2d with use_polygon_extrusion := b } }

/-- `combine_primitives` (source lines 1049-1092): `None` for an empty
list, the single solid alone, else plain concatenation (modelled as the
list of solids). -/
def combine_primitives (ps : List Solid3D) : Option (List Solid3D) :=
  match ps with
  | [] => none
  | [p] => some [p]
  | q => some q

/-- `calculate_quality` (source lines 1094-1123), as a function of the two
meshes' volumes (mesh volume is an external attribute): relative volume
error, clamped, scaled by 100 and truncated to an integer by Python's
`int()` (the value is non-negative, where truncation is the floor). -/
def calculate_quality (vol_orig vol_recon : ℚ) : ℤ :=
  let vol_error := if vol_orig > 0 then |vol_orig - vol_recon| / vol_orig else 1
  let quality := max 0 (1 - vol_error)
  ⌊quality * 100⌋

/-- The result dictionary returned by `reconstruct` (source lines
1153-1241); keys absent from a branch keep their defaults. -/
structure RResult where
  success : Bool
  error : Option String := none
  axis_name : String := ""
  num_layers : ℕ := 0
  num_segments : ℕ := 0
  segments : List Segment
  reconstructed_mesh : Option (List Solid3D)
  quality_score : ℤ

/-- `reconstruct` (source lines 1125-1241) with `vision_results` absent:
axis detection, slicing, grouping, per-segment extrusion, combination and
quality scoring, with the three structured failure branches.  `vol3d`
models the external `trimesh` volume of a constructed solid (the volume of
a concatenation being the sum); `extrudeExc seg` models "the external
geometry kernel raised while extruding `seg`", the case the code's
try/except converts to `None` for that segment. -/
def reconstruct (dist : Dist) (vol3d : Solid3D → ℚ) (extrudeExc : Segment → Bool)
    (lh minH : ℚ) (m : Mesh) : RResult :=
  let ax := detect_primary_axis m
  let layers := slice_mesh m ax.1 lh
  if layers.isEmpty then
    { success := false, error := some ("No valid layers could be extracted"),
      segments := [], reconstructed_mesh := none, quality_score := 0 }
  else
    let segments := group_similar_layers dist lh minH layers
    let prims := segments.filterMap (fun s =>
      if extrudeExc s then none else extrude_segment s ax.2)
    if prims.isEmpty then
      { success := false, error := some ("No primitives could be extruded"),
        segments := segments, reconstructed_mesh := none, quality_score := 0 }
    else
      match combine_primitives prims with
      | none =>
        { success := false, error := some ("Boolean union failed"),
          segments := segments, reconstructed_mesh := none, quality_score := 0 }
      | some comb =>
        { success := true, axis_name := ax.2, num_layers := layers.length,
          num_segments := segments.length, segments := segments,
          reconstructed_mesh := some comb,
          quality_score := calculate_quality m.volume ((comb.map vol3d).sum) }

/-- In-order concatenation of the segments' layer lists. -/
def joinLayers (segs : List Segment) : List Layer :=
  (segs.map (fun s => s.layers)).flatten

/-- Structural invariant of every segment dictionary the grouper builds:
non-empty layer list, `z_start`/`z_end` from the first/last layer, and
`height = (z_end - z_start) + layer_height`. -/
def GoodSeg (lh : ℚ) (s : Segment) : Prop :=
  s.layers ≠ [] ∧ s.z_start = (s.layers.headD dLayer).z_height ∧
    s.z_end = (s.layers.getLastD dLayer).z_height ∧
    s.height = s.z_end - s.z_start + lh

/-- The layers' z-heights are non-decreasing (true of every slice
sequence). -/
def zSorted (layers : List Layer) : Prop :=
  layers.Pairwise (fun a b => a.z_height ≤ b.z_height)

/-! Concrete inputs used by closed counterexamples and witnesses. -/

/-- A concrete polygon whose metrics and fits make the classifier pick the
circle candidate (circularity 0.95, rectangularity 0.5). -/
def pC : Polygon :=
  { area := 3, centroid := (0, 0),
    metrics := { circularity := 0.95, rectangularity := 0.5, aspect := 1 },
    circleFit := { center := (0, 0), radius := 1, rms_error := 0, fit_quality := 0.9 },
    rectFit := { center := (0, 0), width := 1, height := 1, rotation := 0, fit_quality := 0.3 },
    ellipseFit := { center := (0, 0), major_axis := 2, minor_axis := 2, rotation := 0,
                    fit_quality := 0.3 } }

/-- Concrete layer over `pC` at height 1. -/
def lA : Layer := { layer_id := 0, z_height := 1, polygon := pC, area := 3, centroid := (0, 0) }

/-- Concrete layer over `pC` at height 0. -/
def lB : Layer := { layer_id := 1, z_height := 0, polygon := pC, area := 3, centroid := (0, 0) }

/-- Layer constructor for the boundary-filter example: id and z-height `i`,
area `a`. -/
def mkLy (i : ℕ) (a : ℚ) : Layer :=
  { layer_id := i, z_height := (i : ℚ), polygon := pC, area := a, centroid := (0, 0) }

/-- Ten layers whose areas are `[0,0,100,100,100,100,100,100,0,0]`: median
area 100, threshold 10, prefix and suffix runs of 2 tiny layers each. -/
def L10 : List Layer :=
  [mkLy 0 0, mkLy 1 0, mkLy 2 100, mkLy 3 100, mkLy 4 100,
   mkLy 5 100, mkLy 6 100, mkLy 7 100, mkLy 8 0, mkLy 9 0]

/-- The single segment produced by grouping `[lA, lB]`. -/
def seg9 : Segment := mkSegment 0.5 [lA, lB] (classify_and_fit_2d none pC)

/-- Concrete circle primitive of radius 1. -/
def primC0 : Fitted2D :=
  { type := ShapeType.circle, center := (0, 0), fit_quality := 1, radius := 1,
    metrics := dMetrics }

/-- Single-layer segment view over `lA` with primitive `primC0`. -/
def segViewA : SegView := { primitive_2d := primC0, layers := [lA] }

/-- Single-layer segment view over `lB` with primitive `primC0`. -/
def segViewB : SegView := { primitive_2d := primC0, layers := [lB] }

/-- Concrete segment over `lA` with primitive `primC0`. -/
def seg0 : Segment := mkSegment 0.5 [lA] primC0

/-- Concrete mesh: extents `(5,5,1)` so the detected axis is Z, span 1 along
Z, and every section query answers `pC`. -/
def m5 : Mesh := { verts := [(0, 0, 0), (5, 5, 1)], volume := 10, sec := fun _ _ => some pC }

/-- Concrete flat mesh: extents `(1,2,0)`, so the detected axis is Z and the
projected span along it is exactly zero. -/
def m7 : Mesh := { verts := [(0, 0, 0), (1, 2, 0)], volume := 0, sec := fun _ _ => none }

/-! Theorems.  Helper lemmas come first, then the claim theorems with their
witnesses and counterexamples. -/

/-- Helper: the code's size membership function agrees with the
specification's wording. -/
theorem fuzzy_size_match_eq_spec (r : ℚ) : fuzzy_size_match r = sizeMatchSpec r := by
  unfold fuzzy_size_match sizeMatchSpec
  split_ifs <;> norm_num

/-- Helper: the code's shape membership function agrees with the
specification's wording. -/
theorem fuzzy_shape_match_eq_spec (a b : ShapeType) :
    fuzzy_shape_match a b = shapeMatchSpec a b := by
  unfold fuzzy_shape_match shapeMatchSpec
  split_ifs <;> norm_num

/-- Helper: for a nonzero average radius the code's alignment membership
function is the specification's step function of the distance quotient. -/
theorem fuzzy_alignment_eq_spec (cd r : ℚ) (hr : r ≠ 0) :
    fuzzy_alignment cd r = alignmentSpec (cd / r) := by
  unfold fuzzy_alignment alignmentSpec
  rw [if_neg hr]
  dsimp only
  split_ifs <;> norm_num

/-- Helper: in the decision ladder of `should_merge_segments`, the first
component is `true` exactly when the score exceeds 0.35. -/
theorem mergeLadder_iff (s : ℚ) :
    ((if s > 0.70 then ((true, "high_confidence", s) : Bool × String × ℚ)
      else if s > 0.50 then (true, "medium_confidence", s)
      else if s > 0.35 then (true, "low_confidence", s)
      else (false, "split_segments", s)).1 = true) ↔
    ((if s > 0.70 then ((true, "high_confidence", s) : Bool × String × ℚ)
      else if s > 0.50 then (true, "medium_confidence", s)
      else if s > 0.35 then (true, "low_confidence", s)
      else (false, "split_segments", s)).2.2 > 0.35) := by
  split_ifs with h1 h2 h3 <;> simp <;> linarith

/-- Helper: the merge decision of `should_merge_segments` is exactly
"merge score above 0.35" (the three confidence bands all merge). -/
theorem should_merge_iff_score (dist : Dist) (a b : SegView) :
    (should_merge_segments dist a b).1 = true ↔
      (should_merge_segments dist a b).2.2 > 0.35 := by
  unfold should_merge_segments
  dsimp only
  exact mergeLadder_iff _

/-- Claim C1: for two adjacent single-layer segments, the merge score of
`should_merge_segments` is `0.40*size_match + 0.35*shape_match +
0.25*alignment` with the three membership step functions exactly as
specified (size on `min/max` of the areas, alignment on centroid distance
over average characteristic radius), and the decision is merge if and only
if the score exceeds 0.35. -/
theorem c1_merge_score (dist : Dist) (a b : SegView) (la lb : Layer)
    (ha : a.layers = [la]) (hb : b.layers = [lb])
    (hA : 0 < la.area) (hB : 0 < lb.area)
    (hr : (charRadius a.primitive_2d + charRadius b.primitive_2d) / 2 ≠ 0) :
    (should_merge_segments dist a b).2.2 =
      0.40 * sizeMatchSpec (min la.area lb.area / max la.area lb.area) +
      0.35 * shapeMatchSpec a.primitive_2d.type b.primitive_2d.type +
      0.25 * alignmentSpec (dist la.centroid lb.centroid /
        ((charRadius a.primitive_2d + charRadius b.primitive_2d) / 2)) ∧
    ((should_merge_segments dist a b).1 = true ↔
      (should_merge_segments dist a b).2.2 > 0.35) := by
  refine ⟨?_, should_merge_iff_score dist a b⟩
  have hmax : max la.area lb.area > 0 := lt_max_of_lt_left hA
  unfold should_merge_segments
  rw [ha, hb]
  dsimp only [List.headD]
  rw [if_pos hmax, fuzzy_size_match_eq_spec, fuzzy_shape_match_eq_spec,
    fuzzy_alignment_eq_spec _ _ hr]
  split_ifs <;> rfl

/-- Witness for C1 at concrete single-layer circle segments. -/
theorem c1_merge_score_witness :
    (should_merge_segments taxiDist segViewA segViewB).2.2 =
      0.40 * sizeMatchSpec (min lA.area lB.area / max lA.area lB.area) +
      0.35 * shapeMatchSpec segViewA.primitive_2d.type segViewB.primitive_2d.type +
      0.25 * alignmentSpec (taxiDist lA.centroid lB.centroid /
        ((charRadius segViewA.primitive_2d + charRadius segViewB.primitive_2d) / 2)) ∧
    ((should_merge_segments taxiDist segViewA segViewB).1 = true ↔
      (should_merge_segments taxiDist segViewA segViewB).2.2 > 0.35) :=
  c1_merge_score taxiDist segViewA segViewB lA lB rfl rfl
    (by norm_num [lA]) (by norm_num [lB])
    (by norm_num [segViewA, segViewB, primC0, charRadius])

/-- Claim C6 (counterexample): `calculate_quality` does not return exactly
`100 * max(0, 1 - |Vr - Vo|/Vo)` — at `Vo = 3, Vr = 2` that value is
`200/3`, while the function returns the integer 66. -/
theorem c6_counterexample :
    calculate_quality 3 2 = 66 ∧
    ((calculate_quality 3 2 : ℤ) : ℚ) ≠ 100 * max 0 (1 - |(2 : ℚ) - 3| / 3) := by
  have h : calculate_quality 3 2 = 66 := by
    norm_num [calculate_quality, max_def, abs_of_nonneg]
  refine ⟨h, ?_⟩
  rw [h]
  norm_num [max_def, abs_of_nonpos]

/-- Claim C6 (amended): `calculate_quality` returns the integer truncation
`⌊100 * max(0, 1 - |Vr - Vo|/Vo)⌋` (Python's `int()` of a non-negative
float) when the original volume is positive, and 0 whenever the original
volume is non-positive. -/
theorem c6_quality_formula (vo vr : ℚ) :
    (0 < vo → calculate_quality vo vr = ⌊(100 : ℚ) * max 0 (1 - |vr - vo| / vo)⌋) ∧
    (vo ≤ 0 → calculate_quality vo vr = 0) := by
  constructor
  · intro h
    unfold calculate_quality
    rw [if_pos h, abs_sub_comm vo vr, mul_comm]
  · intro h
    unfold calculate_quality
    rw [if_neg (by linarith : ¬vo > 0)]
    norm_num

/-- Witness for the amended C6 at `Vo = 3, Vr = 2`. -/
theorem c6_quality_formula_witness :
    calculate_quality 3 2 = ⌊(100 : ℚ) * max 0 (1 - |(2 : ℚ) - 3| / 3)⌋ :=
  (c6_quality_formula 3 2).1 (by norm_num)

/-- Claim C3 (counterexample): for `z_min = 0, z_max = 10, h = 1` the
candidate heights are not `z_min+h, z_min+2h, …, z_max-h`: `linspace`
produces 10 points from 1 to 9 with spacing `8/9`, so consecutive heights
do not differ by `h`. -/
theorem c3_counterexample :
    sliceHeights 0 10 1 ≠ [1, 2, 3, 4, 5, 6, 7, 8, 9] ∧
    (sliceHeights 0 10 1).getD 1 0 - (sliceHeights 0 10 1).getD 0 0 ≠ 1 := by
  have h10 : (⌊((10 : ℚ) - 0) / 1⌋ : ℤ) = 10 := by norm_num
  have hn : num_slice_layers 0 10 1 = 10 := by
    unfold num_slice_layers
    rw [h10]
    rfl
  have hs : sliceHeights 0 10 1 = linspace (0 + 1) (10 - 1) 10 := by
    unfold sliceHeights
    rw [hn]
  rw [hs]
  constructor
  · intro h
    have hlen := congrArg List.length h
    simp [linspace] at hlen
  · simp [linspace, List.range_succ]
    norm_num

/-- Helper: element `i` of a `linspace` with at least two points. -/
theorem linspace_getD (a b : ℚ) (n i : ℕ) (h2 : 2 ≤ n) (hi : i < n) :
    (linspace a b n).getD i 0 = a + (i : ℚ) * ((b - a) / ((n : ℚ) - 1)) := by
  unfold linspace
  rw [if_neg (by omega), if_neg (by omega)]
  simp [List.getD_eq_getElem?_getD, List.getElem?_map, List.getElem?_range, hi]

/-- Helper: membership in a `linspace` with at least two points. -/
theorem linspace_mem (a b : ℚ) (n : ℕ) (h2 : 2 ≤ n) {z : ℚ}
    (hz : z ∈ linspace a b n) :
    ∃ i : ℕ, i < n ∧ z = a + (i : ℚ) * ((b - a) / ((n : ℚ) - 1)) := by
  unfold linspace at hz
  rw [if_neg (by omega), if_neg (by omega)] at hz
  simp only [List.mem_map, List.mem_range] at hz
  obtain ⟨i, hi, rfl⟩ := hz
  exact ⟨i, hi, rfl⟩

/-- Claim C3 (amended): `slice_mesh` evaluates
`num_layers = ⌊(z_max - z_min)/h⌋` candidate heights given by numpy
`linspace(z_min + h, z_max - h, num_layers)`: all candidates exceed
`z_min`; with at least two candidates, consecutive candidates differ by
`(z_max - z_min - 2h)/(num_layers - 1)` (not by `h` in general), the first
and last candidates are `z_min + h` and `z_max - h`, and every candidate is
strictly below `z_max`; with exactly one candidate it is `z_min + h` (which
equals `z_max` exactly when the span equals `h`). -/
theorem c3_slice_heights (z_min z_max lh : ℚ) (hlh : 0 < lh) :
    (sliceHeights z_min z_max lh).length = num_slice_layers z_min z_max lh ∧
    (∀ z ∈ sliceHeights z_min z_max lh, z_min < z) ∧
    (num_slice_layers z_min z_max lh = 1 →
      sliceHeights z_min z_max lh = [z_min + lh]) ∧
    (2 ≤ num_slice_layers z_min z_max lh →
      (∀ i : ℕ, i + 1 < num_slice_layers z_min z_max lh →
        (sliceHeights z_min z_max lh).getD (i + 1) 0 -
          (sliceHeights z_min z_max lh).getD i 0 =
          (z_max - z_min - 2 * lh) / ((num_slice_layers z_min z_max lh : ℚ) - 1)) ∧
      (sliceHeights z_min z_max lh).getD 0 0 = z_min + lh ∧
      (sliceHeights z_min z_max lh).getD (num_slice_layers z_min z_max lh - 1) 0 =
        z_max - lh ∧
      (∀ z ∈ sliceHeights z_min z_max lh, z < z_max)) := by
  have hsh : sliceHeights z_min z_max lh =
      linspace (z_min + lh) (z_max - lh) (num_slice_layers z_min z_max lh) := rfl
  set n := num_slice_layers z_min z_max lh with hn
  have hfl : ∀ k : ℕ, 1 ≤ k → k ≤ n → (k : ℚ) * lh ≤ z_max - z_min := by
    intro k hk1 hk2
    rw [hn] at hk2
    unfold num_slice_layers at hk2
    have h1 : (k : ℤ) ≤ ⌊(z_max - z_min) / lh⌋ := by omega
    have h2 : (k : ℚ) ≤ (z_max - z_min) / lh := by exact_mod_cast Int.le_floor.mp h1
    exact (le_div_iff hlh).mp h2
  refine ⟨?_, ?_, ?_, ?_⟩
  · rw [hsh]
    unfold linspace
    split_ifs with h0 h1
    · simp [h0]
    · simp [h1]
    · simp
  · intro z hz
    rw [hsh] at hz
    rcases Nat.lt_or_ge n 2 with hlt | hge
    · interval_cases n
      · simp [linspace] at hz
      · simp [linspace] at hz
        subst hz
        linarith
    · obtain ⟨i, hi, rfl⟩ := linspace_mem _ _ _ hge hz
      have hspan : (2 : ℚ) * lh ≤ z_max - z_min := by
        have := hfl 2 (by omega) hge
        push_cast at this
        linarith
      have hcast : (2 : ℚ) ≤ (n : ℚ) := by exact_mod_cast hge
      have hstep : 0 ≤ (z_max - lh - (z_min + lh)) / ((n : ℚ) - 1) :=
        div_nonneg (by linarith) (by linarith)
      have hterm : 0 ≤ (i : ℚ) * ((z_max - lh - (z_min + lh)) / ((n : ℚ) - 1)) :=
        mul_nonneg (Nat.cast_nonneg i) hstep
      linarith
  · intro h1
    rw [hsh]
    unfold linspace
    rw [if_neg (by omega), if_pos h1]
  · intro hge
    have hcast : (2 : ℚ) ≤ (n : ℚ) := by exact_mod_cast hge
    have hne : ((n : ℚ) - 1) ≠ 0 := by linarith
    have hspan : (2 : ℚ) * lh ≤ z_max - z_min := by
      have := hfl 2 (by omega) hge
      push_cast at this
      linarith
    refine ⟨?_, ?_, ?_, ?_⟩
    · intro i hi
      rw [hsh, linspace_getD _ _ _ _ hge hi, linspace_getD _ _ _ _ hge (by omega)]
      push_cast
      field_simp
      ring
    · rw [hsh, linspace_getD _ _ _ _ hge (by omega)]
      push_cast
      ring
    · rw [hsh, linspace_getD _ _ _ _ hge (by omega)]
      have hc : ((n - 1 : ℕ) : ℚ) = (n : ℚ) - 1 := by
        push_cast [Nat.cast_sub (by omega : 1 ≤ n)]
        ring
      rw [hc]
      field_simp
      try ring
    · intro z hz
      rw [hsh] at hz
      obtain ⟨i, hi, rfl⟩ := linspace_mem _ _ _ hge hz
      have hstep : 0 ≤ (z_max - lh - (z_min + lh)) / ((n : ℚ) - 1) :=
        div_nonneg (by linarith) (by linarith)
      have hile : (i : ℚ) ≤ (n : ℚ) - 1 := by
        have : (i : ℚ) ≤ ((n : ℕ) : ℚ) - 1 := by
          have : i ≤ n - 1 := by omega
          have h2 := (Nat.cast_le (α := ℚ)).mpr this
          rw [Nat.cast_sub (by omega : 1 ≤ n)] at h2
          simpa using h2
        simpa using this
      have hmul : (i : ℚ) * ((z_max - lh - (z_min + lh)) / ((n : ℚ) - 1)) ≤
          ((n : ℚ) - 1) * ((z_max - lh - (z_min + lh)) / ((n : ℚ) - 1)) :=
        mul_le_mul_of_nonneg_right hile hstep
      have hne : ((n : ℚ) - 1) ≠ 0 := by linarith
      have hclose : ((n : ℚ) - 1) * ((z_max - lh - (z_min + lh)) / ((n : ℚ) - 1)) =
          z_max - lh - (z_min + lh) := by
        field_simp
      linarith

/-- Witness for the amended C3 at `z_min = 0, z_max = 10, h = 1`. -/
theorem c3_slice_heights_witness :
    (sliceHeights 0 10 1).length = num_slice_layers 0 10 1 ∧
    (∀ z ∈ sliceHeights 0 10 1, (0 : ℚ) < z) ∧
    (num_slice_layers 0 10 1 = 1 → sliceHeights 0 10 1 = [0 + 1]) ∧
    (2 ≤ num_slice_layers 0 10 1 →
      (∀ i : ℕ, i + 1 < num_slice_layers 0 10 1 →
        (sliceHeights 0 10 1).getD (i + 1) 0 - (sliceHeights 0 10 1).getD i 0 =
          (10 - 0 - 2 * 1) / ((num_slice_layers 0 10 1 : ℚ) - 1)) ∧
      (sliceHeights 0 10 1).getD 0 0 = 0 + 1 ∧
      (sliceHeights 0 10 1).getD (num_slice_layers 0 10 1 - 1) 0 = 10 - 1 ∧
      (∀ z ∈ sliceHeights 0 10 1, z < 10)) :=
  c3_slice_heights 0 10 1 (by norm_num)

/-- Helper: the circle candidate is tagged `circle`. -/
@[simp] theorem circleCandidate_type (p : Polygon) :
    (circleCandidate p).type = ShapeType.circle := rfl

/-- Helper: the rectangle candidate is tagged `rectangle`. -/
@[simp] theorem rectangleCandidate_type (p : Polygon) :
    (rectangleCandidate p).type = ShapeType.rectangle := rfl

/-- Helper: the ellipse candidate is tagged `ellipse`. -/
@[simp] theorem ellipseCandidate_type (p : Polygon) :
    (ellipseCandidate p).type = ShapeType.ellipse := rfl

/-- Helper: the `for candidate in candidates` search for the rectangle
candidate. -/
theorem find_rect (p : Polygon) :
    [circleCandidate p, rectangleCandidate p, ellipseCandidate p].find?
      (fun c => decide (c.type = ShapeType.rectangle)) = some (rectangleCandidate p) := by
  simp [List.find?]

/-- Helper: the `for candidate in candidates` search for the circle
candidate. -/
theorem find_circle (p : Polygon) :
    [circleCandidate p, rectangleCandidate p, ellipseCandidate p].find?
      (fun c => decide (c.type = ShapeType.circle)) = some (circleCandidate p) := by
  simp [List.find?]

/-- Helper: `classify_and_fit_2d` agrees with the specification-worded
selection policy followed by the flag heuristic. -/
theorem classify_eq_selectSpec (hint : Option ShapeType) (p : Polygon) :
    classify_and_fit_2d hint p = attachFlag (classifySelectSpec hint p) := by
  cases hint with
  | none =>
    unfold classify_and_fit_2d classifySelectSpec
    dsimp only
    split_ifs <;> simp [find_rect, find_circle]
  | some t =>
    cases t with
    | circle =>
      unfold classify_and_fit_2d classifySelectSpec
      dsimp only
      by_cases hq : (circleCandidate p).fit_quality > 0.7
      · simp [List.find?, hq]
      · rw [if_neg hq]
        simp only [List.find?, circleCandidate_type, rectangleCandidate_type,
          ellipseCandidate_type]
        simp [hq]
        split_ifs <;> simp [find_rect, find_circle]
    | rectangle =>
      unfold classify_and_fit_2d classifySelectSpec
      dsimp only
      by_cases hq : (rectangleCandidate p).fit_quality > 0.7
      · simp [List.find?, hq]
      · rw [if_neg hq]
        simp only [List.find?, circleCandidate_type, rectangleCandidate_type,
          ellipseCandidate_type]
        simp [hq]
        split_ifs <;> simp [find_rect, find_circle]
    | ellipse =>
      unfold classify_and_fit_2d classifySelectSpec
      dsimp only
      by_cases hq : (ellipseCandidate p).fit_quality > 0.7
      · simp [List.find?, hq]
      · rw [if_neg hq]
        simp only [List.find?, circleCandidate_type, rectangleCandidate_type,
          ellipseCandidate_type]
        simp [hq]
        split_ifs <;> simp [find_rect, find_circle]

/-- Claim C2: `classify_and_fit_2d` selects its result by the
specification's ordered policy — hint with boosted quality above 0.7 first,
then the rectangle rule (`rectangularity > 0.90` and `circularity < 0.82`),
the circle rule (`circularity > 0.90` and `rectangularity < 0.85`), the
rectangle tiebreak (`rectangularity > circularity + 0.10`), else the
candidate with the highest boosted fit quality (circle boosted x1.2 /
penalized x0.7 by circularity, rectangle boosted x1.3 / penalized x0.8 by
rectangularity, ellipse boosted x1.1 by aspect ratio, as built into the
candidates) — and then attaches the polygon-extrusion flag. -/
theorem c2_selection_policy (hint : Option ShapeType) (p : Polygon) :
    classify_and_fit_2d hint p = attachFlag (classifySelectSpec hint p) :=
  classify_eq_selectSpec hint p

/-- Helper: Python `max` returns an element of its argument list. -/
theorem pyListMax_mem (f : Fitted2D → ℚ) (x0 : Fitted2D) (xs : List Fitted2D) :
    pyListMax f x0 xs = x0 ∨ pyListMax f x0 xs ∈ xs := by
  induction xs generalizing x0 with
  | nil => exact Or.inl rfl
  | cons y ys ih =>
    unfold pyListMax at ih ⊢
    simp only [List.foldl_cons]
    by_cases hc : f y > f x0
    · rw [if_pos hc]
      rcases ih y with h | h
      · exact Or.inr (by simp [h])
      · exact Or.inr (List.mem_cons_of_mem _ h)
    · rw [if_neg hc]
      rcases ih x0 with h | h
      · exact Or.inl h
      · exact Or.inr (List.mem_cons_of_mem _ h)

/-- Helper: the specification-worded selection always returns one of the
three candidates. -/
theorem classifySelectSpec_cases (hint : Option ShapeType) (p : Polygon) :
    classifySelectSpec hint p = circleCandidate p ∨
    classifySelectSpec hint p = rectangleCandidate p ∨
    classifySelectSpec hint p = ellipseCandidate p := by
  have hfb : pyListMax (fun c => c.fit_quality) (circleCandidate p)
      [rectangleCandidate p, ellipseCandidate p] = circleCandidate p ∨
      pyListMax (fun c => c.fit_quality) (circleCandidate p)
        [rectangleCandidate p, ellipseCandidate p] = rectangleCandidate p ∨
      pyListMax (fun c => c.fit_quality) (circleCandidate p)
        [rectangleCandidate p, ellipseCandidate p] = ellipseCandidate p := by
    rcases pyListMax_mem (fun c => c.fit_quality) (circleCandidate p)
        [rectangleCandidate p, ellipseCandidate p] with h | h
    · exact Or.inl h
    · simp only [List.mem_cons, List.mem_singleton, List.not_mem_nil] at h
      tauto
  unfold classifySelectSpec
  cases hint with
  | none =>
    dsimp only
    split_ifs <;>
      first
        | exact Or.inl rfl
        | exact Or.inr (Or.inl rfl)
        | exact Or.inr (Or.inr rfl)
        | exact hfb
  | some t =>
    cases t <;> (dsimp only; split_ifs) <;>
      first
        | exact Or.inl rfl
        | exact Or.inr (Or.inl rfl)
        | exact Or.inr (Or.inr rfl)
        | exact hfb

/-- Helper: the circle candidate carries no `rectangularity` key. -/
@[simp] theorem circleCandidate_rect (p : Polygon) :
    (circleCandidate p).rectangularity = none := rfl

/-- Helper: the ellipse candidate carries no `rectangularity` key. -/
@[simp] theorem ellipseCandidate_rect (p : Polygon) :
    (ellipseCandidate p).rectangularity = none := rfl

/-- Helper: the rectangle candidate's `rectangularity` key is the raw
rectangle fit quality. -/
@[simp] theorem rectangleCandidate_rect (p : Polygon) :
    (rectangleCandidate p).rectangularity = some p.rectFit.fit_quality := rfl

/-- Claim C10: with CV validation disabled, `classify_and_fit_2d` sets
`use_polygon_extrusion` only for a selected rectangle whose rectangularity
is below 0.75; a selected circle or ellipse never carries the flag (their
dicts lack the `rectangularity` key, defaulted to 1.0); and
`extrude_segment` consults the flag only in its rectangle branch, so its
output on a circle or ellipse segment is independent of the flag. -/
theorem c10_polygon_extrusion (hint : Option ShapeType) (p : Polygon) (seg : Segment)
    (axisName : String) (b1 b2 : Bool) :
    ((classify_and_fit_2d hint p).type = ShapeType.circle ∨
        (classify_and_fit_2d hint p).type = ShapeType.ellipse →
      (classify_and_fit_2d hint p).use_polygon_extrusion = false) ∧
    ((classify_and_fit_2d hint p).use_polygon_extrusion = true →
      (classify_and_fit_2d hint p).type = ShapeType.rectangle ∧
      (classify_and_fit_2d hint p).rectangularity.getD 1 < 0.75) ∧
    (seg.primitive_2d.type ≠ ShapeType.rectangle →
      extrude_segment (setFlag seg b1) axisName =
        extrude_segment (setFlag seg b2) axisName) := by
  have hcases := classifySelectSpec_cases hint p
  have heq := classify_eq_selectSpec hint p
  refine ⟨?_, ?_, ?_⟩
  · intro ht
    rcases hcases with hc | hc | hc
    · rw [heq, hc]
      dsimp only [attachFlag]
      rw [circleCandidate_rect]
      exact decide_eq_false (by norm_num)
    · exfalso
      rw [heq, hc] at ht
      rcases ht with h | h <;> exact absurd h (by simp [attachFlag])
    · rw [heq, hc]
      dsimp only [attachFlag]
      rw [ellipseCandidate_rect]
      exact decide_eq_false (by norm_num)
  · intro hflag
    rw [heq] at hflag ⊢
    rcases hcases with hc | hc | hc
    · exfalso
      rw [hc] at hflag
      dsimp only [attachFlag] at hflag
      rw [circleCandidate_rect] at hflag
      simp only [Option.getD_none] at hflag
      exact absurd (of_decide_eq_true hflag) (by norm_num)
    · rw [hc] at hflag ⊢
      dsimp only [attachFlag] at hflag ⊢
      rw [rectangleCandidate_rect] at hflag ⊢
      simp only [Option.getD_some] at hflag ⊢
      exact ⟨rfl, of_decide_eq_true hflag⟩
    · exfalso
      rw [hc] at hflag
      dsimp only [attachFlag] at hflag
      rw [ellipseCandidate_rect] at hflag
      simp only [Option.getD_none] at hflag
      exact absurd (of_decide_eq_true hflag) (by norm_num)
  · intro hne
    rcases seg with ⟨zs, ze, hh, nl, ls, prim, shp⟩
    rcases prim with ⟨t, c, q, r, rms, w, ht2, rot, maj, mnr, rect, met, fl⟩
    dsimp only at hne
    cases t with
    | circle => rfl
    | rectangle => exact absurd rfl hne
    | ellipse => rfl

/-- Witness for C10: on the concrete polygon `pC` the classifier selects a
circle and leaves the flag off, and extrusion of the concrete circle
segment `seg0` ignores the flag. -/
theorem c10_polygon_extrusion_witness :
    (classify_and_fit_2d none pC).use_polygon_extrusion = false ∧
    extrude_segment (setFlag seg0 true) "Z" = extrude_segment (setFlag seg0 false) "Z" := by
  constructor
  · refine (c10_polygon_extrusion none pC seg0 "Z" true false).1 (Or.inl ?_)
    rw [classify_eq_selectSpec]
    have : classifySelectSpec none pC = circleCandidate pC := by
      unfold classifySelectSpec
      dsimp only
      rw [if_neg (by norm_num [pC]), if_pos (by norm_num [pC])]
    rw [this]
    rfl
  · exact (c10_polygon_extrusion none pC seg0 "Z" true false).2.2 (by decide)

/-- Helper: `findIdx` counts the run of elements failing the predicate. -/
theorem findIdx_eq_length_takeWhile {α : Type} (q : α → Bool) (l : List α) :
    l.findIdx q = (l.takeWhile (fun a => !(q a))).length := by
  induction l with
  | nil => simp
  | cons a l ih =>
    by_cases h : q a <;> simp [List.findIdx_cons, List.takeWhile_cons, h, ih]

/-- Helper: a `takeWhile` run untouched by a long-enough `take`. -/
theorem takeWhile_take_of_le {α : Type} (q : α → Bool) (l : List α) (m : ℕ)
    (h : (l.takeWhile q).length ≤ m) : (l.take m).takeWhile q = l.takeWhile q := by
  induction l generalizing m with
  | nil => simp
  | cons a l ih =>
    cases m with
    | zero =>
      by_cases hq : q a
      · simp [List.takeWhile_cons, hq] at h
      · simp [List.takeWhile_cons, hq]
    | succ m =>
      by_cases hq : q a
      · simp only [List.takeWhile_cons, hq, if_true, List.length_cons,
          Nat.add_le_add_iff_right] at h
        simp [List.take_succ_cons, List.takeWhile_cons, hq, ih m h]
      · simp [List.take_succ_cons, List.takeWhile_cons, hq]

/-- Helper: `dropWhile` drops exactly the `takeWhile` run. -/
theorem dropWhile_eq_drop_length {α : Type} (q : α → Bool) (l : List α) :
    l.dropWhile q = l.drop (l.takeWhile q).length := by
  induction l with
  | nil => simp
  | cons a l ih =>
    by_cases hq : q a <;> simp [List.dropWhile_cons, List.takeWhile_cons, hq, ih]

/-- Helper: some element of a non-empty rational list is at least the numpy
median. -/
theorem npMedian_le_some_mem (l : List ℚ) (hl : l ≠ []) :
    ∃ x ∈ l, npMedian l ≤ x := by
  have hn : 0 < l.length := List.length_pos.mpr hl
  have hlen : (l.insertionSort (· ≤ ·)).length = l.length :=
    List.length_insertionSort _ l
  have hmid : l.length / 2 < (l.insertionSort (· ≤ ·)).length := by omega
  refine ⟨(l.insertionSort (· ≤ ·))[l.length / 2], ?_, ?_⟩
  · exact ((List.perm_insertionSort _ l).mem_iff).mp (List.getElem_mem hmid)
  · unfold npMedian
    dsimp only
    have hg : (l.insertionSort (· ≤ ·)).getD (l.length / 2) 0 =
        (l.insertionSort (· ≤ ·))[l.length / 2] := by
      rw [List.getD_eq_getElem?_getD, List.getElem?_eq_getElem hmid]
      rfl
    by_cases hodd : l.length % 2 = 1
    · rw [if_pos hodd, hg]
    · rw [if_neg hodd, hg]
      have h2 : 2 ≤ l.length := by omega
      have hmid1 : l.length / 2 - 1 < (l.insertionSort (· ≤ ·)).length := by omega
      have hg1 : (l.insertionSort (· ≤ ·)).getD (l.length / 2 - 1) 0 =
          (l.insertionSort (· ≤ ·))[l.length / 2 - 1] := by
        rw [List.getD_eq_getElem?_getD, List.getElem?_eq_getElem hmid1]
        rfl
      rw [hg1]
      have hsort : List.Sorted (· ≤ ·) (l.insertionSort (· ≤ ·)) :=
        List.sorted_insertionSort _ l
      have hle : (l.insertionSort (· ≤ ·))[l.length / 2 - 1] ≤
          (l.insertionSort (· ≤ ·))[l.length / 2] := by
        have h := (List.pairwise_iff_get.mp hsort) ⟨l.length / 2 - 1, hmid1⟩
          ⟨l.length / 2, hmid⟩ (by rw [Fin.lt_def]; dsimp only; omega)
        rw [List.get_eq_getElem, List.get_eq_getElem] at h
        exact h
      linarith

/-- Claim C4 (counterexample): on ten layers with areas
`[0,0,100,100,100,100,100,100,0,0]` the filter trims two layers from each
end — 40% of all layers, more than the claimed 20% total cap — instead of
returning the input unchanged. -/
theorem c4_counterexample :
    filter_boundary_artifacts L10 ≠ L10 ∧
    ((L10.length : ℚ) - ((filter_boundary_artifacts L10).length : ℚ)) >
      0.2 * (L10.length : ℚ) := by
  have hmed : npMedian (L10.map (fun l => l.area)) = 100 := by
    norm_num [L10, mkLy, npMedian, List.insertionSort, List.orderedInsert]
  have hres : filter_boundary_artifacts L10 = (L10.drop 2).take 6 := by
    unfold filter_boundary_artifacts
    rw [if_neg (by norm_num [L10])]
    dsimp only
    rw [hmed]
    rw [if_neg (by norm_num)]
    have hj : L10.findIdx (fun l => decide (l.area > 0.10 * 100)) = 2 := by
      norm_num [L10, mkLy, List.findIdx_cons]
    have hk : L10.reverse.findIdx (fun l => decide (l.area > 0.10 * 100)) = 2 := by
      norm_num [L10, mkLy, List.findIdx_cons, List.reverse_cons, List.reverse_nil]
    rw [hj, hk]
    rw [if_neg (by norm_num [L10]), if_neg (by norm_num [L10])]
    rw [if_neg (by norm_num [L10])]
    norm_num [L10]
  constructor
  · rw [hres]
    intro h
    have := congrArg List.length h
    simp [L10] at this
  · rw [hres]
    norm_num [L10]

/-- Claim C4 (amended): for at least five layers with positive median area,
the filter trims exactly the prefix run and the suffix run of layers whose
area is at most 10% of the median area, except that if either run on its
own exceeds 20% of the layer count the input is returned unchanged — the
safety cap is applied per side, not to the total number of discarded
layers. -/
theorem c4_boundary_filter (layers : List Layer) (h5 : 5 ≤ layers.length)
    (hmed : 0 < npMedian (layers.map (fun l => l.area))) :
    filter_boundary_artifacts layers =
      (let thr := 0.10 * npMedian (layers.map (fun l => l.area))
       let tiny : Layer → Bool := fun l => decide (l.area ≤ thr)
       let pre := (layers.takeWhile tiny).length
       let suf := (layers.reverse.takeWhile tiny).length
       if (pre : ℚ) > (layers.length : ℚ) * 0.2 ∨
          (suf : ℚ) > (layers.length : ℚ) * 0.2 then layers
       else ((layers.dropWhile tiny).reverse.dropWhile tiny).reverse) := by
  unfold filter_boundary_artifacts
  rw [if_neg (by omega : ¬layers.length < 5)]
  dsimp only
  have hnil : layers.map (fun l => l.area) ≠ [] := by
    intro hc
    have hlen := congrArg List.length hc
    rw [List.length_map, List.length_nil] at hlen
    omega
  obtain ⟨x0, hx0l, hx0le⟩ := npMedian_le_some_mem (layers.map fun l => l.area) hnil
  revert hmed hx0le
  generalize npMedian (layers.map (fun l => l.area)) = M
  intro hmed hx0le
  rw [if_neg (ne_of_gt hmed)]
  set q : Layer → Bool := fun l => decide (l.area > 0.10 * M) with hqdef
  set tiny : Layer → Bool := fun l => decide (l.area ≤ 0.10 * M) with htinydef
  have hpt : (fun l : Layer => !(q l)) = tiny := by
    rw [hqdef, htinydef]
    funext l
    show (!(decide (l.area > 0.10 * M))) = decide (l.area ≤ 0.10 * M)
    by_cases hc : l.area ≤ 0.10 * M
    · rw [decide_eq_true hc, decide_eq_false (not_lt.mpr hc)]
      rfl
    · rw [decide_eq_true (not_le.mp hc), decide_eq_false hc]
      rfl
  have hex : ∃ x ∈ layers, q x = true := by
    obtain ⟨ly, hlyl, hlyeq⟩ := List.mem_map.mp hx0l
    refine ⟨ly, hlyl, ?_⟩
    rw [hqdef]
    show decide (ly.area > 0.10 * M) = true
    rw [decide_eq_true_eq]
    rw [hlyeq]
    linarith
  have hexr : ∃ x ∈ layers.reverse, q x = true := by
    obtain ⟨x, hx, hqx⟩ := hex
    exact ⟨x, List.mem_reverse.mpr hx, hqx⟩
  have hfind : layers.findIdx q < layers.length := List.findIdx_lt_length_of_exists hex
  have hfindrev : layers.reverse.findIdx q < layers.reverse.length :=
    List.findIdx_lt_length_of_exists hexr
  have hrevlen : layers.reverse.length = layers.length := List.length_reverse layers
  set pre := (layers.takeWhile tiny).length with hpredef
  set suf := (layers.reverse.takeWhile tiny).length with hsufdef
  have hjpre : layers.findIdx q = pre := by
    rw [findIdx_eq_length_takeWhile, hpt, hpredef]
  have hksuf : layers.reverse.findIdx q = suf := by
    rw [findIdx_eq_length_takeWhile, hpt, hsufdef]
  have hprelen : pre < layers.length := hjpre ▸ hfind
  have hsuflen : suf < layers.length := by
    rw [← hksuf]
    rw [hrevlen] at hfindrev
    exact hfindrev
  have hps : pre + suf < layers.length := by
    rw [← hjpre, ← hksuf]
    by_contra hcon
    push_neg at hcon
    have h1 : q layers[layers.findIdx q] = true := List.findIdx_getElem
    have hidx : layers.length - 1 - layers.findIdx q < layers.reverse.findIdx q := by
      omega
    have h2 : q layers.reverse[layers.length - 1 - layers.findIdx q] = false :=
      List.not_of_lt_findIdx hidx
    rw [List.getElem_reverse] at h2
    have hii : layers.length - 1 - (layers.length - 1 - layers.findIdx q) =
        layers.findIdx q := by omega
    simp_rw [hii] at h2
    rw [h1] at h2
    exact Bool.noConfusion h2
  rw [hjpre, hksuf]
  rw [if_neg (by omega : ¬pre = layers.length), if_neg (by omega : ¬suf = layers.length)]
  have hcast : ((layers.length - 1 - suf : ℕ) : ℚ) = (layers.length : ℚ) - 1 - suf := by
    rw [Nat.cast_sub (by omega : suf ≤ layers.length - 1),
      Nat.cast_sub (by omega : 1 ≤ layers.length)]
    norm_num
  have hcond : (layers.length : ℚ) - ((layers.length - 1 - suf : ℕ) : ℚ) - 1 = (suf : ℚ) := by
    rw [hcast]
    ring
  rw [hcond]
  by_cases hcap : (pre : ℚ) > (layers.length : ℚ) * 0.2 ∨
      (suf : ℚ) > (layers.length : ℚ) * 0.2
  · rw [if_pos hcap, if_pos hcap]
  · rw [if_neg hcap, if_neg hcap]
    have harith : layers.length - 1 - suf + 1 - pre = layers.length - pre - suf := by
      omega
    rw [harith]
    have hne2 : (layers.drop pre).take (layers.length - pre - suf) ≠ [] := by
      intro hnil
      have := congrArg List.length hnil
      simp [List.length_take, List.length_drop] at this
      omega
    rw [if_neg (by simpa [List.isEmpty_iff] using hne2)]
    have hXdrop : layers.dropWhile tiny = layers.drop pre := by
      rw [dropWhile_eq_drop_length, hpredef]
    have hdw2 : (layers.drop pre).reverse.dropWhile tiny =
        (layers.drop pre).reverse.drop suf := by
      rw [dropWhile_eq_drop_length]
      have htk : (layers.drop pre).reverse.takeWhile tiny =
          layers.reverse.takeWhile tiny := by
        rw [List.reverse_drop]
        exact takeWhile_take_of_le tiny layers.reverse _ (by rw [← hsufdef]; omega)
      rw [htk, ← hsufdef]
    rw [hXdrop, hdw2]
    rw [List.drop_reverse, List.reverse_reverse, List.length_drop]

/-- Witness for the amended C4 on the concrete ten-layer list `L10`. -/
theorem c4_boundary_filter_witness :
    filter_boundary_artifacts L10 =
      (let thr := 0.10 * npMedian (L10.map (fun l => l.area))
       let tiny : Layer → Bool := fun l => decide (l.area ≤ thr)
       let pre := (L10.takeWhile tiny).length
       let suf := (L10.reverse.takeWhile tiny).length
       if (pre : ℚ) > (L10.length : ℚ) * 0.2 ∨
          (suf : ℚ) > (L10.length : ℚ) * 0.2 then L10
       else ((L10.dropWhile tiny).reverse.dropWhile tiny).reverse) :=
  c4_boundary_filter L10 (by norm_num [L10])
    (by norm_num [L10, mkLy, npMedian, List.insertionSort, List.orderedInsert])

/-- Helper: one-step equation of `scanOnceAux` on the empty list. -/
theorem scanOnceAux_nil (dist : Dist) (lh minH : ℚ) (skip : Bool) (acc : List Segment)
    (m : Bool) : scanOnceAux dist lh minH skip acc m [] = (acc, m) := by
  cases skip <;> rfl

/-- Helper: one-step equation of `scanOnceAux` when skipping an absorbed
segment. -/
theorem scanOnceAux_skip (dist : Dist) (lh minH : ℚ) (acc : List Segment) (m : Bool)
    (seg : Segment) (rest : List Segment) :
    scanOnceAux dist lh minH true acc m (seg :: rest) =
      scanOnceAux dist lh minH false acc m rest := rfl

/-- Helper: one-step equation of `scanOnceAux` when processing a segment. -/
theorem scanOnceAux_cons (dist : Dist) (lh minH : ℚ) (acc : List Segment) (m : Bool)
    (seg : Segment) (rest : List Segment) :
    scanOnceAux dist lh minH false acc m (seg :: rest) =
      (if seg.height < minH then
        match rest with
        | next :: _ =>
          if mergeCond dist seg next then
            scanOnceAux dist lh minH true (acc ++ [combineSegs lh seg next]) true rest
          else
            match acc.getLast? with
            | some prev =>
              if mergeCond dist prev seg then
                scanOnceAux dist lh minH false (acc.dropLast ++ [combineSegs lh prev seg])
                  true rest
              else scanOnceAux dist lh minH false (acc ++ [seg]) m rest
            | none => scanOnceAux dist lh minH false (acc ++ [seg]) m rest
        | [] =>
          match acc.getLast? with
          | some prev =>
            if mergeCond dist prev seg then (acc.dropLast ++ [combineSegs lh prev seg], true)
            else (acc ++ [seg], m)
          | none => (acc ++ [seg], m)
      else scanOnceAux dist lh minH false (acc ++ [seg]) m rest) := rfl

/-- Helper: a scan that reports no merge only appended the segments it
visited, so it returns the input list unchanged, and the incoming flag was
already false. -/
theorem scanOnceAux_false (dist : Dist) (lh minH : ℚ) :
    ∀ (rest : List Segment) (skip : Bool) (acc : List Segment) (m : Bool),
      (scanOnceAux dist lh minH skip acc m rest).2 = false →
      m = false ∧ (scanOnceAux dist lh minH skip acc m rest).1 =
        acc ++ (if skip then rest.tail else rest) := by
  intro rest
  induction rest with
  | nil =>
    intro skip acc m h
    rw [scanOnceAux_nil] at h ⊢
    refine ⟨h, ?_⟩
    cases skip <;> simp
  | cons seg rest ih =>
    intro skip acc m h
    cases skip with
    | true =>
      rw [scanOnceAux_skip] at h ⊢
      obtain ⟨hm, hres⟩ := ih false acc m h
      rw [hres]
      exact ⟨hm, by simp⟩
    | false =>
      rw [scanOnceAux_cons] at h ⊢
      by_cases hshort : seg.height < minH
      · rw [if_pos hshort] at h ⊢
        cases rest with
        | nil =>
          dsimp only at h ⊢
          cases hl : acc.getLast? with
          | some prev =>
            rw [hl] at h
            dsimp only at h ⊢
            by_cases hmc : mergeCond dist prev seg
            · rw [if_pos hmc] at h
              simp at h
            · rw [if_neg hmc] at h ⊢
              exact ⟨h, by simp⟩
          | none =>
            rw [hl] at h
            dsimp only at h ⊢
            exact ⟨h, by simp⟩
        | cons next rest2 =>
          dsimp only at h ⊢
          by_cases hmc : mergeCond dist seg next
          · rw [if_pos hmc] at h
            obtain ⟨hm, _⟩ := ih true (acc ++ [combineSegs lh seg next]) true h
            simp at hm
          · rw [if_neg hmc] at h ⊢
            cases hl : acc.getLast? with
            | some prev =>
              rw [hl] at h
              dsimp only at h ⊢
              by_cases hmp : mergeCond dist prev seg
              · rw [if_pos hmp] at h
                obtain ⟨hm, _⟩ :=
                  ih false (acc.dropLast ++ [combineSegs lh prev seg]) true h
                simp at hm
              · rw [if_neg hmp] at h ⊢
                obtain ⟨hm, hres⟩ := ih false (acc ++ [seg]) m h
                rw [hres]
                exact ⟨hm, by simp⟩
            | none =>
              rw [hl] at h
              dsimp only at h ⊢
              obtain ⟨hm, hres⟩ := ih false (acc ++ [seg]) m h
              rw [hres]
              exact ⟨hm, by simp⟩
      · rw [if_neg hshort] at h ⊢
        obtain ⟨hm, hres⟩ := ih false (acc ++ [seg]) m h
        rw [hres]
        exact ⟨hm, by simp⟩

/-- Helper: the absorption loop performs at most as many scans as its
fuel. -/
theorem shortMergeGo_count_le (dist : Dist) (lh minH : ℚ) :
    ∀ (n : ℕ) (segs : List Segment), (shortMergeGo dist lh minH n segs).2 ≤ n := by
  intro n
  induction n with
  | zero => intro segs; simp [shortMergeGo]
  | succ n ih =>
    intro segs
    unfold shortMergeGo
    dsimp only
    by_cases h : (scanOnce dist lh minH segs).2
    · rw [if_pos h]
      have := ih (scanOnce dist lh minH segs).1
      dsimp only
      omega
    · rw [if_neg h]
      dsimp only
      omega

/-- Helper: a no-merge scan is the identity on the segment list. -/
theorem scanOnce_no_merge (dist : Dist) (lh minH : ℚ) (segs : List Segment)
    (h : (scanOnce dist lh minH segs).2 = false) :
    (scanOnce dist lh minH segs).1 = segs := by
  unfold scanOnce at h ⊢
  simpa using (scanOnceAux_false dist lh minH segs false [] false h).2

/-- Helper: if the absorption loop exits below its fuel, its result is a
fixed point — one more scan makes no merge and changes nothing. -/
theorem shortMergeGo_stable (dist : Dist) (lh minH : ℚ) :
    ∀ (n : ℕ) (segs : List Segment), (shortMergeGo dist lh minH n segs).2 < n →
      scanOnce dist lh minH (shortMergeGo dist lh minH n segs).1 =
        ((shortMergeGo dist lh minH n segs).1, false) := by
  intro n
  induction n with
  | zero =>
    intro segs h
    simp [shortMergeGo] at h
  | succ n ih =>
    intro segs h
    unfold shortMergeGo at h ⊢
    dsimp only at h ⊢
    by_cases hm : (scanOnce dist lh minH segs).2
    · rw [if_pos hm] at h ⊢
      dsimp only at h ⊢
      exact ih _ (by omega)
    · rw [if_neg hm] at h ⊢
      dsimp only at h ⊢
      simp only [Bool.not_eq_true] at hm
      have hid := scanOnce_no_merge dist lh minH segs hm
      rw [hid]
      rw [Prod.ext_iff]
      exact ⟨hid, hm⟩

/-- Claim C8: the short-segment absorption post-pass of
`group_similar_layers` performs at most 10 full scans over the segment
list; it exits early only when a scan makes no merge, in which case the
result is a fixed point; and `group_similar_layers` is the total function
computed by this capped loop over the initial grouping. -/
theorem c8_iteration_cap (dist : Dist) (lh minH : ℚ) (segs : List Segment) :
    (shortMergeGo dist lh minH 10 segs).2 ≤ 10 ∧
    ((shortMergeGo dist lh minH 10 segs).2 < 10 →
      scanOnce dist lh minH (shortMergeGo dist lh minH 10 segs).1 =
        ((shortMergeGo dist lh minH 10 segs).1, false)) ∧
    ∀ layers : List Layer, group_similar_layers dist lh minH layers =
      (shortMergeGo dist lh minH 10 (initialSegments dist lh layers)).1 :=
  ⟨shortMergeGo_count_le dist lh minH 10 segs,
   shortMergeGo_stable dist lh minH 10 segs,
   fun _ => rfl⟩

/-- Witness for C8 on the empty segment list: the loop scans once, merges
nothing, and its result is a fixed point. -/
theorem c8_iteration_cap_witness :
    scanOnce taxiDist 0.5 2 (shortMergeGo taxiDist 0.5 2 10 []).1 =
      ((shortMergeGo taxiDist 0.5 2 10 []).1, false) :=
  (c8_iteration_cap taxiDist 0.5 2 []).2.1 (by
    show (shortMergeGo taxiDist 0.5 2 (9 + 1) []).2 < 10
    unfold shortMergeGo scanOnce
    simp [scanOnceAux])

/-- Helper: when the projected span along the slicing axis is zero, no
candidate heights are generated and slicing yields no layers. -/
theorem slice_mesh_flat (m : Mesh) (axis : Fin 3) (lh : ℚ)
    (hflat : projMax m axis = projMin m axis) :
    slice_mesh m axis lh = [] := by
  have hnum : num_slice_layers (projMin m axis) (projMax m axis) lh = 0 := by
    unfold num_slice_layers
    rw [hflat, sub_self, zero_div]
    simp
  unfold slice_mesh sliceHeights
  dsimp only
  rw [hnum]
  simp [linspace]

/-- Claim C7: on a mesh whose projected extent along the detected slicing
axis is exactly zero, `reconstruct` returns the structured failure
`success = false` with a non-empty error string (and, being a total
function, raises nothing). -/
theorem c7_flat_mesh (dist : Dist) (vol3d : Solid3D → ℚ) (extrudeExc : Segment → Bool)
    (lh minH : ℚ) (m : Mesh)
    (hflat : projMax m (detect_primary_axis m).1 = projMin m (detect_primary_axis m).1) :
    (reconstruct dist vol3d extrudeExc lh minH m).success = false ∧
    ∃ e, (reconstruct dist vol3d extrudeExc lh minH m).error = some e ∧ e ≠ "" := by
  unfold reconstruct
  dsimp only
  rw [slice_mesh_flat m (detect_primary_axis m).1 lh hflat]
  refine ⟨rfl, "No valid layers could be extracted", rfl, by simp⟩

/-- Witness for C7 on the concrete flat mesh `m7`. -/
theorem c7_flat_mesh_witness :
    (reconstruct taxiDist (fun _ => 1) (fun _ => false) 0.5 2 m7).success = false ∧
    ∃ e, (reconstruct taxiDist (fun _ => 1) (fun _ => false) 0.5 2 m7).error = some e ∧
      e ≠ "" := by
  refine c7_flat_mesh taxiDist (fun _ => 1) (fun _ => false) 0.5 2 m7 ?_
  have hax : detect_primary_axis m7 = ((2 : Fin 3), "Z") := by
    unfold detect_primary_axis extents projMax projMin listMaxD listMinD
    rw [if_neg, if_neg]
    · norm_num [m7, coordAt]
    · norm_num [m7, coordAt]
  rw [hax]
  unfold projMax projMin listMaxD listMinD
  norm_num [m7, coordAt]

/-- Helper: `joinLayers` of an empty segment list. -/
@[simp] theorem joinLayers_nil : joinLayers [] = [] := rfl

/-- Helper: `joinLayers` of a cons. -/
@[simp] theorem joinLayers_cons (s : Segment) (segs : List Segment) :
    joinLayers (s :: segs) = s.layers ++ joinLayers segs := by
  simp [joinLayers]

/-- Helper: `joinLayers` distributes over append. -/
@[simp] theorem joinLayers_append (a b : List Segment) :
    joinLayers (a ++ b) = joinLayers a ++ joinLayers b := by
  simp [joinLayers]

/-- Helper: the segment constructor establishes the structural segment
invariant for a non-empty layer list. -/
theorem mkSegment_good (lh : ℚ) (ls : List Layer) (prim : Fitted2D) (h : ls ≠ []) :
    GoodSeg lh (mkSegment lh ls prim) := ⟨h, rfl, rfl, rfl⟩

/-- Helper: the layers of a combined segment are the concatenation of its
parts' layers. -/
theorem combineSegs_layers (lh : ℚ) (a b : Segment) :
    (combineSegs lh a b).layers = a.layers ++ b.layers := rfl

/-- Helper: a list with a last element is its `dropLast` plus that
element. -/
theorem dropLast_append_of_getLast? {α : Type} (l : List α) (a : α)
    (h : l.getLast? = some a) : l.dropLast ++ [a] = l := by
  have hne : l ≠ [] := by
    intro hc
    subst hc
    simp at h
  rw [List.getLast?_eq_getLast l hne] at h
  injection h with h2
  rw [← h2]
  exact List.dropLast_append_getLast hne

/-- Helper: the grouping scan partitions its input — the concatenation of
the produced segments' layer lists is the open group plus the remaining
layers, in order. -/
theorem groupScanAux_join (dist : Dist) (lh : ℚ) :
    ∀ (rest : List Layer) (prev : Layer) (cur : List Layer),
      joinLayers (groupScanAux dist lh prev cur rest) = cur ++ rest := by
  intro rest
  induction rest with
  | nil =>
    intro prev cur
    simp [groupScanAux, closeSeg, mkSegment]
  | cons c rest ih =>
    intro prev cur
    by_cases hm : layersMerge dist prev c
    · simp only [groupScanAux]
      rw [if_pos hm, ih]
      simp
    · simp only [groupScanAux]
      rw [if_neg hm]
      rw [joinLayers_cons, ih]
      simp [closeSeg, mkSegment]

/-- Helper: every segment produced by the grouping scan satisfies the
structural segment invariant. -/
theorem groupScanAux_good (dist : Dist) (lh : ℚ) :
    ∀ (rest : List Layer) (prev : Layer) (cur : List Layer), cur ≠ [] →
      ∀ s ∈ groupScanAux dist lh prev cur rest, GoodSeg lh s := by
  intro rest
  induction rest with
  | nil =>
    intro prev cur hcur s hs
    simp only [groupScanAux, List.mem_singleton] at hs
    subst hs
    exact mkSegment_good lh cur _ hcur
  | cons c rest ih =>
    intro prev cur hcur s hs
    simp only [groupScanAux] at hs
    by_cases hm : layersMerge dist prev c
    · rw [if_pos hm] at hs
      exact ih c (cur ++ [c]) (by simp) s hs
    · rw [if_neg hm] at hs
      rcases List.mem_cons.mp hs with h | h
      · subst h
        exact mkSegment_good lh cur _ hcur
      · exact ih c [c] (by simp) s h

/-- Helper: the absorption scan preserves the concatenation of layers —
merging two adjacent segments concatenates their layer lists in place (the
skipped head after a merge has already been absorbed into the
accumulator). -/
theorem scanOnceAux_join (dist : Dist) (lh minH : ℚ) :
    ∀ (rest : List Segment) (skip : Bool) (acc : List Segment) (m : Bool),
      joinLayers ((scanOnceAux dist lh minH skip acc m rest).1) =
        joinLayers acc ++ joinLayers (if skip then rest.tail else rest) := by
  intro rest
  induction rest with
  | nil =>
    intro skip acc m
    rw [scanOnceAux_nil]
    cases skip <;> simp
  | cons seg rest ih =>
    intro skip acc m
    cases skip with
    | true =>
      rw [scanOnceAux_skip, ih false acc m]
      simp
    | false =>
      rw [scanOnceAux_cons]
      by_cases hshort : seg.height < minH
      · rw [if_pos hshort]
        cases rest with
        | nil =>
          dsimp only
          cases hl : acc.getLast? with
          | some prev =>
            dsimp only
            by_cases hmc : mergeCond dist prev seg
            · rw [if_pos hmc]
              dsimp only
              rw [← dropLast_append_of_getLast? acc prev hl]
              simp [combineSegs_layers]
            · rw [if_neg hmc]
              simp
          | none =>
            dsimp only
            simp
        | cons next rest2 =>
          dsimp only
          by_cases hmc : mergeCond dist seg next
          · rw [if_pos hmc, ih true (acc ++ [combineSegs lh seg next]) true]
            simp [combineSegs_layers]
          · rw [if_neg hmc]
            cases hl : acc.getLast? with
            | some prev =>
              dsimp only
              by_cases hmp : mergeCond dist prev seg
              · rw [if_pos hmp,
                  ih false (acc.dropLast ++ [combineSegs lh prev seg]) true]
                rw [← dropLast_append_of_getLast? acc prev hl]
                simp [combineSegs_layers]
              · rw [if_neg hmp, ih false (acc ++ [seg]) m]
                simp
            | none =>
              dsimp only
              rw [ih false (acc ++ [seg]) m]
              simp
      · rw [if_neg hshort, ih false (acc ++ [seg]) m]
        simp

/-- Helper: the absorption scan preserves the structural segment
invariant. -/
theorem scanOnceAux_good (dist : Dist) (lh minH : ℚ) :
    ∀ (rest : List Segment) (skip : Bool) (acc : List Segment) (m : Bool),
      (∀ s ∈ acc, GoodSeg lh s) → (∀ s ∈ rest, GoodSeg lh s) →
      ∀ s ∈ (scanOnceAux dist lh minH skip acc m rest).1, GoodSeg lh s := by
  intro rest
  induction rest with
  | nil =>
    intro skip acc m hacc _ s hs
    rw [scanOnceAux_nil] at hs
    exact hacc s hs
  | cons seg rest ih =>
    intro skip acc m hacc hrest s hs
    have hseg : GoodSeg lh seg := hrest seg (by simp)
    have hrest2 : ∀ t ∈ rest, GoodSeg lh t := fun t ht => hrest t (by simp [ht])
    cases skip with
    | true =>
      rw [scanOnceAux_skip] at hs
      exact ih false acc m hacc hrest2 s hs
    | false =>
      rw [scanOnceAux_cons] at hs
      by_cases hshort : seg.height < minH
      · rw [if_pos hshort] at hs
        cases rest with
        | nil =>
          dsimp only at hs
          cases hl : acc.getLast? with
          | some prev =>
            rw [hl] at hs
            dsimp only at hs
            by_cases hmc : mergeCond dist prev seg
            · rw [if_pos hmc] at hs
              dsimp only at hs
              rcases List.mem_append.mp hs with h | h
              · exact hacc s (List.dropLast_sublist acc |>.subset h)
              · rw [List.mem_singleton] at h
                subst h
                refine mkSegment_good lh _ _ ?_
                have hprev : GoodSeg lh prev :=
                  hacc prev (by
                    rw [← dropLast_append_of_getLast? acc prev hl]
                    simp)
                simp [hprev.1]
            · rw [if_neg hmc] at hs
              rcases List.mem_append.mp hs with h | h
              · exact hacc s h
              · rw [List.mem_singleton] at h
                subst h
                exact hseg
          | none =>
            rw [hl] at hs
            dsimp only at hs
            rcases List.mem_append.mp hs with h | h
            · exact hacc s h
            · rw [List.mem_singleton] at h
              subst h
              exact hseg
        | cons next rest2 =>
          dsimp only at hs
          by_cases hmc : mergeCond dist seg next
          · rw [if_pos hmc] at hs
            refine ih true (acc ++ [combineSegs lh seg next]) true ?_ hrest2 s hs
            intro t ht
            rcases List.mem_append.mp ht with h | h
            · exact hacc t h
            · rw [List.mem_singleton] at h
              subst h
              refine mkSegment_good lh _ _ ?_
              simp [hseg.1]
          · rw [if_neg hmc] at hs
            cases hl : acc.getLast? with
            | some prev =>
              rw [hl] at hs
              dsimp only at hs
              by_cases hmp : mergeCond dist prev seg
              · rw [if_pos hmp] at hs
                refine ih false (acc.dropLast ++ [combineSegs lh prev seg]) true
                  ?_ hrest2 s hs
                intro t ht
                rcases List.mem_append.mp ht with h | h
                · exact hacc t (List.dropLast_sublist acc |>.subset h)
                · rw [List.mem_singleton] at h
                  subst h
                  refine mkSegment_good lh _ _ ?_
                  have hprev : GoodSeg lh prev :=
                    hacc prev (by
                      rw [← dropLast_append_of_getLast? acc prev hl]
                      simp)
                  simp [hprev.1]
              · rw [if_neg hmp] at hs
                refine ih false (acc ++ [seg]) m ?_ hrest2 s hs
                intro t ht
                rcases List.mem_append.mp ht with h | h
                · exact hacc t h
                · rw [List.mem_singleton] at h
                  subst h
                  exact hseg
            | none =>
              rw [hl] at hs
              dsimp only at hs
              refine ih false (acc ++ [seg]) m ?_ hrest2 s hs
              intro t ht
              rcases List.mem_append.mp ht with h | h
              · exact hacc t h
              · rw [List.mem_singleton] at h
                subst h
                exact hseg
      · rw [if_neg hshort] at hs
        refine ih false (acc ++ [seg]) m ?_ hrest2 s hs
        intro t ht
        rcases List.mem_append.mp ht with h | h
        · exact hacc t h
        · rw [List.mem_singleton] at h
          subst h
          exact hseg

/-- Helper: one absorption scan preserves the concatenation of layers. -/
theorem scanOnce_join (dist : Dist) (lh minH : ℚ) (segs : List Segment) :
    joinLayers ((scanOnce dist lh minH segs).1) = joinLayers segs := by
  unfold scanOnce
  rw [scanOnceAux_join]
  simp

/-- Helper: one absorption scan preserves the structural segment
invariant. -/
theorem scanOnce_good (dist : Dist) (lh minH : ℚ) (segs : List Segment)
    (h : ∀ s ∈ segs, GoodSeg lh s) :
    ∀ s ∈ (scanOnce dist lh minH segs).1, GoodSeg lh s := by
  unfold scanOnce
  exact scanOnceAux_good dist lh minH segs false [] false (by simp) h

/-- Helper: the capped absorption loop preserves the concatenation of
layers. -/
theorem shortMergeGo_join (dist : Dist) (lh minH : ℚ) :
    ∀ (n : ℕ) (segs : List Segment),
      joinLayers ((shortMergeGo dist lh minH n segs).1) = joinLayers segs := by
  intro n
  induction n with
  | zero => intro segs; rfl
  | succ n ih =>
    intro segs
    unfold shortMergeGo
    dsimp only
    by_cases h : (scanOnce dist lh minH segs).2
    · rw [if_pos h]
      dsimp only
      rw [ih, scanOnce_join]
    · rw [if_neg h]
      dsimp only
      rw [scanOnce_join]

/-- Helper: the capped absorption loop preserves the structural segment
invariant. -/
theorem shortMergeGo_good (dist : Dist) (lh minH : ℚ) :
    ∀ (n : ℕ) (segs : List Segment), (∀ s ∈ segs, GoodSeg lh s) →
      ∀ s ∈ (shortMergeGo dist lh minH n segs).1, GoodSeg lh s := by
  intro n
  induction n with
  | zero => intro segs h; exact h
  | succ n ih =>
    intro segs h
    unfold shortMergeGo
    dsimp only
    by_cases hf : (scanOnce dist lh minH segs).2
    · rw [if_pos hf]
      dsimp only
      exact ih _ (scanOnce_good dist lh minH segs h)
    · rw [if_neg hf]
      dsimp only
      exact scanOnce_good dist lh minH segs h

/-- Helper: the boundary filter returns a sublist of its input. -/
theorem filter_boundary_sublist (layers : List Layer) :
    (filter_boundary_artifacts layers).Sublist layers := by
  unfold filter_boundary_artifacts
  dsimp only
  split_ifs <;>
    first
      | exact List.Sublist.refl _
      | exact (List.take_sublist _ _).trans (List.drop_sublist _ _)

/-- Helper: the boundary filter never empties a non-empty layer list. -/
theorem filter_boundary_ne_nil (layers : List Layer) (h : layers ≠ []) :
    filter_boundary_artifacts layers ≠ [] := by
  unfold filter_boundary_artifacts
  dsimp only
  split_ifs <;> try exact h
  all_goals
    rename_i hie
    intro hc
    exact hie (by rw [hc]; rfl)

/-- Helper: the concatenated layers of `group_similar_layers` are exactly
the boundary-filtered input layers. -/
theorem group_join (dist : Dist) (lh minH : ℚ) (layers : List Layer) :
    joinLayers (group_similar_layers dist lh minH layers) =
      filter_boundary_artifacts layers := by
  unfold group_similar_layers initialSegments
  cases hfb : filter_boundary_artifacts layers with
  | nil =>
    rw [shortMergeGo_join]
    rfl
  | cons f0 rest =>
    rw [shortMergeGo_join, groupScanAux_join]
    rfl

/-- Helper: every segment of `group_similar_layers` satisfies the
structural segment invariant. -/
theorem group_good (dist : Dist) (lh minH : ℚ) (layers : List Layer) :
    ∀ s ∈ group_similar_layers dist lh minH layers, GoodSeg lh s := by
  unfold group_similar_layers initialSegments
  cases hfb : filter_boundary_artifacts layers with
  | nil =>
    exact shortMergeGo_good dist lh minH 10 [] (by simp)
  | cons f0 rest =>
    exact shortMergeGo_good dist lh minH 10 _
      (groupScanAux_good dist lh rest f0 [f0] (by simp))

/-- Helper: grouping a non-empty layer list yields at least one segment. -/
theorem group_ne_nil (dist : Dist) (lh minH : ℚ) (layers : List Layer)
    (h : layers ≠ []) : group_similar_layers dist lh minH layers ≠ [] := by
  intro hc
  have hj := group_join dist lh minH layers
  rw [hc] at hj
  exact filter_boundary_ne_nil layers h hj.symm

/-- Helper: in a z-sorted non-empty layer list, the first layer's height is
at most the last layer's height. -/
theorem zSorted_headD_le_getLastD (ls : List Layer) (h : ls ≠ []) (hs : zSorted ls) :
    (ls.headD dLayer).z_height ≤ (ls.getLastD dLayer).z_height := by
  cases ls with
  | nil => exact absurd rfl h
  | cons x xs =>
    have hlast : (x :: xs).getLastD dLayer = (x :: xs).getLast (by simp) := by
      rw [List.getLastD_eq_getLast?, List.getLast?_eq_getLast _ (by simp)]
      rfl
    rw [hlast]
    have hmem := List.getLast_mem (l := x :: xs) (by simp)
    rcases List.mem_cons.mp hmem with he | he
    · rw [List.headD_cons, he]
    · rw [List.headD_cons]
      have := (List.pairwise_cons.mp hs).1
      exact this _ he

/-- Helper: combining a non-empty list of solids never fails. -/
theorem combine_primitives_ne_nil (ps : List Solid3D) (h : ps ≠ []) :
    ∃ c, combine_primitives ps = some c := by
  match ps with
  | [] => exact absurd rfl h
  | [p] => exact ⟨[p], rfl⟩
  | p :: q :: r => exact ⟨p :: q :: r, rfl⟩

/-- Claim C5: `reconstruct` reports its failure states as structured
results — an empty slice yields `success = false` with the error
`No valid layers could be extracted`; grouping non-empty layers always
yields at least one segment (so a "no segments" state cannot arise); an
empty extrusion result yields `success = false` with the error
`No primitives could be extruded`; and every failing result carries a
non-empty human-readable error string (the embedded function is total, so
no exception escapes). -/
theorem c5_failure_states (dist : Dist) (vol3d : Solid3D → ℚ) (exc : Segment → Bool)
    (lh minH : ℚ) (m : Mesh) :
    (slice_mesh m (detect_primary_axis m).1 lh = [] →
      (reconstruct dist vol3d exc lh minH m).success = false ∧
      (reconstruct dist vol3d exc lh minH m).error =
        some ("No valid layers could be extracted")) ∧
    (slice_mesh m (detect_primary_axis m).1 lh ≠ [] →
      group_similar_layers dist lh minH (slice_mesh m (detect_primary_axis m).1 lh) ≠ []) ∧
    (slice_mesh m (detect_primary_axis m).1 lh ≠ [] →
      (group_similar_layers dist lh minH
          (slice_mesh m (detect_primary_axis m).1 lh)).filterMap
        (fun s => if exc s then none else extrude_segment s (detect_primary_axis m).2) =
          [] →
      (reconstruct dist vol3d exc lh minH m).success = false ∧
      (reconstruct dist vol3d exc lh minH m).error =
        some ("No primitives could be extruded")) ∧
    ((reconstruct dist vol3d exc lh minH m).success = false →
      ∃ e, (reconstruct dist vol3d exc lh minH m).error = some e ∧ e ≠ "") := by
  refine ⟨?_, ?_, ?_, ?_⟩
  · intro hl
    unfold reconstruct
    dsimp only
    rw [hl]
    exact ⟨rfl, rfl⟩
  · intro hl
    exact group_ne_nil dist lh minH _ hl
  · intro hl hp
    unfold reconstruct
    dsimp only
    rw [if_neg (by simpa [List.isEmpty_iff] using hl), hp]
    exact ⟨rfl, rfl⟩
  · intro hfail
    by_cases h1 : (slice_mesh m (detect_primary_axis m).1 lh).isEmpty
    · refine ⟨"No valid layers could be extracted", ?_, by decide⟩
      unfold reconstruct
      dsimp only
      rw [if_pos h1]
    · by_cases h2 : ((group_similar_layers dist lh minH
          (slice_mesh m (detect_primary_axis m).1 lh)).filterMap
          (fun s => if exc s then none else
            extrude_segment s (detect_primary_axis m).2)).isEmpty
      · refine ⟨"No primitives could be extruded", ?_, by decide⟩
        unfold reconstruct
        dsimp only
        rw [if_neg h1, if_pos h2]
      · exfalso
        unfold reconstruct at hfail
        dsimp only at hfail
        rw [if_neg h1, if_neg h2] at hfail
        obtain ⟨c, hc⟩ := combine_primitives_ne_nil _
          (fun hc => h2 (List.isEmpty_iff.mpr hc))
        rw [hc] at hfail
        dsimp only at hfail
        exact Bool.noConfusion hfail

/-- Witness for C5 on the concrete mesh `m5` with every extrusion failing:
the structured no-primitives failure is returned. -/
theorem c5_failure_states_witness :
    (reconstruct taxiDist (fun _ => 1) (fun _ => true) 0.5 2 m5).success = false ∧
    (reconstruct taxiDist (fun _ => 1) (fun _ => true) 0.5 2 m5).error =
      some ("No primitives could be extruded") := by
  have hax : detect_primary_axis m5 = ((2 : Fin 3), "Z") := by
    unfold detect_primary_axis extents projMax projMin listMaxD listMinD
    rw [if_neg, if_neg]
    · norm_num [m5, coordAt]
    · norm_num [m5, coordAt]
  have hne : slice_mesh m5 (detect_primary_axis m5).1 0.5 ≠ [] := by
    rw [hax]
    unfold slice_mesh
    dsimp only
    have hmin : projMin m5 2 = 0 := by
      unfold projMin listMinD
      norm_num [m5, coordAt]
    have hmax : projMax m5 2 = 1 := by
      unfold projMax listMaxD
      norm_num [m5, coordAt]
    rw [hmin, hmax]
    have hfl : (⌊((1 : ℚ) - 0) / 0.5⌋ : ℤ) = 2 := by norm_num
    have hn2 : num_slice_layers 0 1 0.5 = 2 := by
      unfold num_slice_layers
      rw [hfl]
      rfl
    have hsh : sliceHeights 0 1 0.5 = [0.5, 0.5] := by
      unfold sliceHeights
      rw [hn2]
      unfold linspace
      norm_num [List.range_succ]
    rw [hsh]
    simp [m5, List.enum, List.enumFrom]
  refine (c5_failure_states taxiDist (fun _ => 1) (fun _ => true) 0.5 2 m5).2.2.1 hne ?_
  simp

/-- Helper: on the concrete polygon `pC` the classifier picks the circle
candidate (rule 3: circularity 0.95 > 0.90 and rectangularity 0.5 < 0.85). -/
theorem classify_none_pC :
    classify_and_fit_2d none pC = attachFlag (circleCandidate pC) := by
  rw [classify_eq_selectSpec]
  unfold classifySelectSpec
  dsimp only
  rw [if_neg (by norm_num [pC]), if_pos (by norm_num [pC])]

/-- Helper: the adjacent concrete layers `lA` and `lB` (identical polygon
and centroid) are merged by the fuzzy decision. -/
theorem layersMerge_lA_lB : layersMerge taxiDist lA lB = true := by
  unfold layersMerge should_merge_segments layerView
  dsimp only
  simp only [show lA.polygon = pC from rfl, show lB.polygon = pC from rfl]
  rw [classify_none_pC]
  norm_num [lA, lB, attachFlag, circleCandidate, pC, charRadius, taxiDist,
    fuzzy_shape_match, fuzzy_alignment, fuzzy_size_match]

/-- Counterexample for claim C9 as frozen: grouping the un-sorted layer
list `[lA, lB]` (z-heights 1 then 0) yields one segment with
`z_start = 1 > z_end = 0`, refuting the claimed `z_start ≤ z_end` (and with
it `height ≥ layer_height`) for arbitrary input orders; the invariant needs
the non-decreasing z-height ordering that real slice sequences have. -/
theorem c9_counterexample :
    group_similar_layers taxiDist 0.5 2 [lA, lB] = [seg9] ∧
    seg9.z_start = 1 ∧ seg9.z_end = 0 ∧ ¬seg9.z_start ≤ seg9.z_end := by
  have hfb : filter_boundary_artifacts [lA, lB] = [lA, lB] := by
    unfold filter_boundary_artifacts
    rw [if_pos (by norm_num)]
  have hclose : closeSeg 0.5 [lA, lB] = seg9 := rfl
  have hinit : initialSegments taxiDist 0.5 [lA, lB] = [seg9] := by
    unfold initialSegments
    rw [hfb]
    dsimp only
    rw [show groupScanAux taxiDist 0.5 lA [lA] [lB] =
        if layersMerge taxiDist lA lB then [closeSeg 0.5 [lA, lB]]
        else closeSeg 0.5 [lA] :: [closeSeg 0.5 [lB]] from rfl]
    rw [layersMerge_lA_lB, if_pos rfl, hclose]
  have hshort : seg9.height < 2 := by
    show (lB.z_height - lA.z_height + 0.5 : ℚ) < 2
    norm_num [lA, lB]
  have hscan1 : scanOnce taxiDist 0.5 2 [seg9] = ([seg9], false) := by
    unfold scanOnce
    rw [scanOnceAux_cons, if_pos hshort]
    rfl
  have hloop : shortMergeGo taxiDist 0.5 2 10 [seg9] = ([seg9], 1) := by
    show shortMergeGo taxiDist 0.5 2 (9 + 1) [seg9] = ([seg9], 1)
    unfold shortMergeGo
    dsimp only
    rw [hscan1]
    rfl
  have hz1 : seg9.z_start = 1 := rfl
  have hz2 : seg9.z_end = 0 := rfl
  refine ⟨?_, hz1, hz2, ?_⟩
  · unfold group_similar_layers
    rw [hinit, hloop]
  · rw [hz1, hz2]
    norm_num

/-- Claim C9 (amended): for every layer list with non-decreasing z-heights
— true of each slice sequence, whose candidate heights are generated in
increasing order — the segments of `group_similar_layers` partition the
boundary-filtered layers: their concatenated layer lists equal the filtered
input exactly, and every segment has a non-empty layer list, `z_start` and
`z_end` from its first and last layer, `z_start ≤ z_end`, and
`height = (z_end − z_start) + layer_height ≥ layer_height`.  The sortedness
hypothesis is needed: see the counterexample on an unsorted list. -/
theorem c9_partition (dist : Dist) (lh minH : ℚ) (layers : List Layer)
    (hs : zSorted layers) :
    joinLayers (group_similar_layers dist lh minH layers) =
      filter_boundary_artifacts layers ∧
    ∀ s ∈ group_similar_layers dist lh minH layers,
      s.layers ≠ [] ∧ s.z_start = (s.layers.headD dLayer).z_height ∧
      s.z_end = (s.layers.getLastD dLayer).z_height ∧ s.z_start ≤ s.z_end ∧
      s.height = s.z_end - s.z_start + lh ∧ lh ≤ s.height := by
  refine ⟨group_join dist lh minH layers, ?_⟩
  intro s hsmem
  obtain ⟨hne, hzs, hze, hh⟩ := group_good dist lh minH layers s hsmem
  have hsub1 : s.layers.Sublist (filter_boundary_artifacts layers) := by
    have h1 : s.layers.Sublist (joinLayers (group_similar_layers dist lh minH layers)) :=
      List.sublist_flatten_of_mem (List.mem_map_of_mem _ hsmem)
    rwa [group_join] at h1
  have hsorted : zSorted s.layers :=
    List.Pairwise.sublist (hsub1.trans (filter_boundary_sublist layers)) hs
  have hle : (s.layers.headD dLayer).z_height ≤ (s.layers.getLastD dLayer).z_height :=
    zSorted_headD_le_getLastD s.layers hne hsorted
  have hzz : s.z_start ≤ s.z_end := by
    rw [hzs, hze]
    exact hle
  refine ⟨hne, hzs, hze, hzz, hh, ?_⟩
  rw [hh]
  linarith

/-- Witness for C9 on the sorted concrete list `[lB, lA]` (z-heights 0
then 1). -/
theorem c9_partition_witness :
    zSorted [lB, lA] ∧
    (joinLayers (group_similar_layers taxiDist 0.5 2 [lB, lA]) =
        filter_boundary_artifacts [lB, lA] ∧
      ∀ s ∈ group_similar_layers taxiDist 0.5 2 [lB, lA],
        s.layers ≠ [] ∧ s.z_start = (s.layers.headD dLayer).z_height ∧
        s.z_end = (s.layers.getLastD dLayer).z_height ∧ s.z_start ≤ s.z_end ∧
        s.height = s.z_end - s.z_start + 0.5 ∧ 0.5 ≤ s.height) :=
  have hs : zSorted [lB, lA] := by
    norm_num [zSorted, List.pairwise_cons, lA, lB]
  ⟨hs, c9_partition taxiDist 0.5 2 [lB, lA] hs⟩

end LPS
